import Mathlib

/-!
Verification of the sweep-and-prune axis (`SAPAxis`, from
`src/geometry/broad_phase_multi_sap/sap_axis.rs`) and of the one-body contact
constraint (`VelocityGroundConstraintWithManifoldFriction`, from
`src/dynamics/solver/velocity_ground_constraint_with_manifold_friction.rs`).

The Rust code is shallowly embedded: `Vec<T>` becomes `List`, in-place loops
become folds or explicit recursions threading the mutated state, machine
floats become exact rationals (`ℚ`), and the two infinite sentinel values of
the axis become the `⊥`/`⊤` of `WithBot (WithTop ℚ)`.
-/

namespace Rapier

/-! ## Sweep-and-prune axis (`sap_axis.rs`)

The endpoint value type.  Rust uses `Real` (a float) whose `-∞`/`+∞` are used
only by the two sentinels; we embed finite values into `WithBot (WithTop ℚ)`
and use `⊥`/`⊤` for the sentinel values. -/
abbrev EVal : Type := WithBot (WithTop ℚ)

/-- Embed a finite coordinate into the endpoint value type. -/
def finVal (q : ℚ) : EVal := ((q : WithTop ℚ) : EVal)

/-- Modelled from the spec (the `SAPEndpoint` type is declared in a sibling
module that is not under `src/`): an endpoint is a scalar coordinate on one
axis, a start/end flag, and a back-reference to its proxy.  The sentinel
endpoints carry the reserved proxy id `SENTINEL`. -/
structure SAPEndpoint where
  value : EVal
  isStart : Bool
  proxy : ℕ
deriving DecidableEq

/-- Reserved proxy id used by the two sentinel endpoints (`u32::MAX`). -/
def SENTINEL : ℕ := 2 ^ 32 - 1

def SAPEndpoint.isEnd (e : SAPEndpoint) : Bool := !e.isStart

def SAPEndpoint.isSentinel (e : SAPEndpoint) : Bool := e.proxy = SENTINEL

/-- The permanent `-∞` start sentinel. -/
def startSentinel : SAPEndpoint := ⟨⊥, true, SENTINEL⟩

/-- The permanent `+∞` end sentinel. -/
def endSentinel : SAPEndpoint := ⟨⊤, false, SENTINEL⟩

/-- Modelled from the spec: a broad-phase proxy is an identity plus an
axis-aligned bounding box (`mins`/`maxs` per dimension).  The proxy table
(`BroadPhaseProxies`) is modelled as a total function from ids. -/
structure Proxy where
  mins : ℕ → ℚ
  maxs : ℕ → ℚ

/-- `SAPAxis` (its two workspace vectors are transient and not modelled as
state: `new_endpoints` is cleared at the start of every `batch_insert`). -/
structure SAPAxis where
  min_bound : ℚ
  max_bound : ℚ
  endpoints : List SAPEndpoint

/-- `SAPAxis::new`.  The Rust constructor `assert!(min_bound <= max_bound)`;
the assertion is carried as a hypothesis by the theorems that need it. -/
def SAPAxis.new (min_bound max_bound : ℚ) : SAPAxis :=
  ⟨min_bound, max_bound, [startSentinel, endSentinel]⟩

/-- Ordering of endpoints by value, as compared by the Rust code. -/
def epLE (a b : SAPEndpoint) : Prop := a.value ≤ b.value

instance : DecidableRel epLE := fun a b =>
  inferInstanceAs (Decidable (a.value ≤ b.value))

instance : IsTotal SAPEndpoint epLE := ⟨fun a b => le_total a.value b.value⟩

instance : IsTrans SAPEndpoint epLE := ⟨fun _ _ _ h h2 => le_trans h h2⟩

/-- The backward in-place merge pass of `batch_insert`, expressed functionally:
both inputs are ascending; existing endpoints are kept before new endpoints of
equal value (the loop breaks on `existing.value <= new.value`, leaving the new
endpoint above the equal existing one). -/
def mergeEnds : List SAPEndpoint → List SAPEndpoint → List SAPEndpoint
  | [], ns => ns
  | ms, [] => ms
  | m :: ms, n :: ns =>
    if m.value ≤ n.value then m :: mergeEnds ms (n :: ns)
    else n :: mergeEnds (m :: ms) ns
termination_by ms ns => ms.length + ns.length

/-- The two endpoints derived from each newly inserted proxy: a start endpoint
at its lower bound and an end endpoint at its upper bound on this axis. -/
def newEndpointsFor (dim : ℕ) (ids : List ℕ) (proxies : ℕ → Proxy) :
    List SAPEndpoint :=
  (ids.map fun id =>
    [⟨finVal ((proxies id).mins dim), true, id⟩,
     ⟨finVal ((proxies id).maxs dim), false, id⟩]).flatten

/-- The assertion executed by `SAPAxis::batch_insert` for every new proxy:
`proxy.aabb.mins[dim] <= self.max_bound` and
`proxy.aabb.maxs[dim] >= self.min_bound`. -/
def SAPAxis.batchInsertAssertsOk (ax : SAPAxis) (dim : ℕ) (ids : List ℕ)
    (proxies : ℕ → Proxy) : Bool :=
  ids.all fun id =>
    decide ((proxies id).mins dim ≤ ax.max_bound) &&
    decide (ax.min_bound ≤ (proxies id).maxs dim)

/-- `SAPAxis::batch_insert`, endpoint-sequence effect.  The sorted batch of
new endpoints is merged into the existing sequence by the single backward
pass; the start sentinel at index 0 is never displaced and the last slot
holds an end sentinel written by the `resize`.  The optional pair reporting
only inserts into the external hash map and never mutates the endpoint
sequence, so it is not part of this state transition. -/
def SAPAxis.batch_insert (ax : SAPAxis) (dim : ℕ) (ids : List ℕ)
    (proxies : ℕ → Proxy) : SAPAxis :=
  if ids.isEmpty then ax
  else
    { ax with
      endpoints :=
        ax.endpoints.take 1 ++
          mergeEnds ax.endpoints.tail.dropLast
            (List.insertionSort epLE (newEndpointsFor dim ids proxies)) ++
          [endSentinel] }

/-- One scan of `delete_out_of_bounds_proxies`: walk the given endpoints in
order and, for each endpoint passing `cond` whose proxy bit is still set,
clear the bit and count it. -/
def scanClear (cond : SAPEndpoint → Bool) :
    List SAPEndpoint → (ℕ → Bool) → (ℕ → Bool) × ℕ
  | [], bits => (bits, 0)
  | e :: rest, bits =>
    if cond e && bits e.proxy then
      let r := scanClear cond rest (Function.update bits e.proxy false)
      (r.1, r.2 + 1)
    else
      scanClear cond rest bits

/-- `SAPAxis::delete_out_of_bounds_proxies`: clear (and count) proxies whose
end endpoint lies below `min_bound` in the front scan, then proxies whose
start endpoint lies above `max_bound` in the back scan; each scan stops at the
first in-bounds endpoint. -/
def SAPAxis.delete_out_of_bounds_proxies (ax : SAPAxis) (bits : ℕ → Bool) :
    (ℕ → Bool) × ℕ :=
  let front := ax.endpoints.takeWhile fun e =>
    decide (e.value < finVal ax.min_bound)
  let r1 := scanClear (fun e => e.isEnd) front bits
  let back := ax.endpoints.reverse.takeWhile fun e =>
    decide (finVal ax.max_bound < e.value)
  let r2 := scanClear (fun e => e.isStart) back r1.1
  (r2.1, r1.2 + r2.2)

/-- `SAPAxis::delete_out_of_bounds_endpoints`: retain sentinels and endpoints
whose proxy bit is still set. -/
def SAPAxis.delete_out_of_bounds_endpoints (ax : SAPAxis) (bits : ℕ → Bool) :
    SAPAxis :=
  { ax with
    endpoints := ax.endpoints.filter fun e => e.isSentinel || bits e.proxy }

/-- Recompute an endpoint's value from its proxy's live bound on this axis
(the first step of each `update_endpoints` iteration). -/
def SAPEndpoint.refresh (dim : ℕ) (proxies : ℕ → Proxy) (e : SAPEndpoint) :
    SAPEndpoint :=
  if e.isStart then { e with value := finVal ((proxies e.proxy).mins dim) }
  else { e with value := finVal ((proxies e.proxy).maxs dim) }

/-- The leftward bubbling of one endpoint in `update_endpoints`, on the
reversed prefix (head = nearest left neighbour): swap while the endpoint's
value is strictly below the neighbour's. -/
def bubbleInsert (e : SAPEndpoint) : List SAPEndpoint → List SAPEndpoint
  | [] => [e]
  | p :: ps => if e.value < p.value then p :: bubbleInsert e ps else e :: p :: ps

/-- `SAPAxis::update_endpoints`, endpoint-sequence effect: every non-sentinel
endpoint in current order is refreshed and bubbled left into the already
processed prefix (held reversed by the fold).  Pair reporting during the
swaps only inserts into the external hash map and never mutates the endpoint
sequence. -/
def SAPAxis.update_endpoints (ax : SAPAxis) (dim : ℕ) (proxies : ℕ → Proxy) :
    SAPAxis :=
  { ax with
    endpoints :=
      (ax.endpoints.tail.dropLast.foldl
          (fun rp e => bubbleInsert (e.refresh dim proxies) rp)
          (ax.endpoints.take 1)).reverse ++
        ax.endpoints.drop (ax.endpoints.length - 1) }

/-- The endpoint-mutating operations of the axis, for stating the invariant
over arbitrary call sequences. -/
inductive SAPOp where
  | insert (dim : ℕ) (ids : List ℕ) (proxies : ℕ → Proxy)
  | update (dim : ℕ) (proxies : ℕ → Proxy)
  | deleteEndpoints (bits : ℕ → Bool)

def SAPAxis.applyOp (ax : SAPAxis) : SAPOp → SAPAxis
  | .insert dim ids proxies => ax.batch_insert dim ids proxies
  | .update dim proxies => ax.update_endpoints dim proxies
  | .deleteEndpoints bits => ax.delete_out_of_bounds_endpoints bits

def SAPAxis.applyOps (ax : SAPAxis) (ops : List SAPOp) : SAPAxis :=
  ops.foldl SAPAxis.applyOp ax

/-- The structural invariant of the axis: the endpoint sequence is sorted
ascending by value, starts with the `-∞` start sentinel and ends with the
`+∞` end sentinel. -/
def SAPAxis.Inv (ax : SAPAxis) : Prop :=
  ax.endpoints.Sorted epLE ∧
    (∃ mid, ax.endpoints = startSentinel :: mid ++ [endSentinel])

/-! ### Lemmas about the merge pass -/

theorem mem_mergeEnds {x : SAPEndpoint} :
    ∀ {ms ns : List SAPEndpoint}, x ∈ mergeEnds ms ns → x ∈ ms ∨ x ∈ ns
  | [], ns => fun h => Or.inr (by simpa [mergeEnds] using h)
  | m :: ms, [] => fun h => Or.inl (by simpa [mergeEnds] using h)
  | m :: ms, n :: ns => fun h => by
    rw [mergeEnds] at h
    split at h
    · rcases List.mem_cons.1 h with rfl | h
      · exact Or.inl (List.mem_cons_self _ _)
      · rcases mem_mergeEnds h with h | h
        · exact Or.inl (List.mem_cons_of_mem _ h)
        · exact Or.inr h
    · rcases List.mem_cons.1 h with rfl | h
      · exact Or.inr (List.mem_cons_self _ _)
      · rcases mem_mergeEnds h with h | h
        · exact Or.inl h
        · exact Or.inr (List.mem_cons_of_mem _ h)
termination_by ms ns => ms.length + ns.length

theorem sorted_mergeEnds :
    ∀ {ms ns : List SAPEndpoint}, ms.Sorted epLE → ns.Sorted epLE →
      (mergeEnds ms ns).Sorted epLE
  | [], ns => fun _ hn => by simpa [mergeEnds] using hn
  | m :: ms, [] => fun hm _ => by simpa [mergeEnds] using hm
  | m :: ms, n :: ns => fun hm hn => by
    rw [List.sorted_cons] at hm hn
    rw [mergeEnds]
    split
    · rename_i hle
      rw [List.sorted_cons]
      refine ⟨fun b hb => ?_, sorted_mergeEnds hm.2 (List.sorted_cons.2 hn)⟩
      rcases mem_mergeEnds hb with hb | hb
      · exact hm.1 b hb
      · rcases List.mem_cons.1 hb with rfl | hb
        · exact hle
        · exact le_trans hle (hn.1 b hb)
    · rename_i hgt
      have hle : epLE n m := le_of_not_le hgt
      rw [List.sorted_cons]
      refine ⟨fun b hb => ?_, sorted_mergeEnds (List.sorted_cons.2 hm) hn.2⟩
      rcases mem_mergeEnds hb with hb | hb
      · rcases List.mem_cons.1 hb with rfl | hb
        · exact hle
        · exact le_trans hle (hm.1 b hb)
      · exact hn.1 b hb
termination_by ms ns => ms.length + ns.length

/-! ### Lemmas about the bubbling pass of `update_endpoints` -/

/-- Reverse ordering, used for the reversed prefix held by the fold. -/
def epGE (a b : SAPEndpoint) : Prop := b.value ≤ a.value

theorem mem_bubbleInsert {x e : SAPEndpoint} :
    ∀ {l : List SAPEndpoint}, x ∈ bubbleInsert e l → x = e ∨ x ∈ l
  | [] => fun h => Or.inl (by simpa [bubbleInsert] using h)
  | p :: ps => fun h => by
    rw [bubbleInsert] at h
    split at h
    · rcases List.mem_cons.1 h with rfl | h
      · exact Or.inr (List.mem_cons_self _ _)
      · rcases mem_bubbleInsert h with h | h
        · exact Or.inl h
        · exact Or.inr (List.mem_cons_of_mem _ h)
    · rcases List.mem_cons.1 h with rfl | h
      · exact Or.inl rfl
      · exact Or.inr h

theorem pairwise_bubbleInsert {e : SAPEndpoint} :
    ∀ {l : List SAPEndpoint}, l.Pairwise epGE →
      (bubbleInsert e l).Pairwise epGE
  | [] => fun _ => by simp [bubbleInsert]
  | p :: ps => fun h => by
    rw [List.pairwise_cons] at h
    rw [bubbleInsert]
    split
    · rename_i hlt
      rw [List.pairwise_cons]
      refine ⟨fun b hb => ?_, pairwise_bubbleInsert h.2⟩
      rcases mem_bubbleInsert hb with rfl | hb
      · exact le_of_lt hlt
      · exact h.1 b hb
    · rename_i hge
      have hpe : epGE e p := le_of_not_lt hge
      rw [List.pairwise_cons]
      refine ⟨fun b hb => ?_, List.pairwise_cons.2 h⟩
      rcases List.mem_cons.1 hb with rfl | hb
      · exact hpe
      · exact le_trans (h.1 b hb) hpe

theorem bubbleInsert_concat (e : SAPEndpoint) :
    ∀ (xs : List SAPEndpoint),
      ∃ ys, bubbleInsert e (xs ++ [startSentinel]) = ys ++ [startSentinel]
  | [] => by
    refine ⟨[e], ?_⟩
    have : ¬ e.value < startSentinel.value := by
      simp [startSentinel]
    simp [bubbleInsert, this]
  | x :: xs => by
    rw [List.cons_append, bubbleInsert]
    split
    · obtain ⟨ys, hys⟩ := bubbleInsert_concat e xs
      exact ⟨x :: ys, by rw [hys, List.cons_append]⟩
    · exact ⟨e :: x :: xs, by simp⟩

/-- Invariant carried through the fold of `update_endpoints`: the reversed
prefix stays descending and keeps the start sentinel as its last element. -/
theorem update_fold_inv (l : List SAPEndpoint) (g : SAPEndpoint → SAPEndpoint) :
    ∀ rp : List SAPEndpoint, (∃ ys, rp = ys ++ [startSentinel]) →
      rp.Pairwise epGE →
      (∃ ys, l.foldl (fun acc e => bubbleInsert (g e) acc) rp =
          ys ++ [startSentinel]) ∧
        (l.foldl (fun acc e => bubbleInsert (g e) acc) rp).Pairwise epGE := by
  induction l with
  | nil => exact fun rp hs hp => ⟨hs, hp⟩
  | cons e l ih =>
    intro rp hs hp
    obtain ⟨ys, rfl⟩ := hs
    exact ih _ (bubbleInsert_concat (g e) ys) (pairwise_bubbleInsert hp)

/-! ### Preservation of the axis invariant -/

theorem value_le_top (e : SAPEndpoint) : epLE e endSentinel := by
  show e.value ≤ (⊤ : EVal)
  exact le_top

theorem bot_le_value (e : SAPEndpoint) : epLE startSentinel e := by
  show (⊥ : EVal) ≤ e.value
  exact bot_le

theorem Inv_batch_insert {ax : SAPAxis} (dim : ℕ) (ids : List ℕ)
    (proxies : ℕ → Proxy) (h : ax.Inv) :
    (ax.batch_insert dim ids proxies).Inv := by
  obtain ⟨hsort, mid, hmid⟩ := h
  rw [SAPAxis.batch_insert]
  split
  · exact ⟨hsort, mid, hmid⟩
  · have hmid_sorted : mid.Sorted epLE := by
      rw [hmid] at hsort
      exact (List.pairwise_append.1 (List.sorted_cons.mp hsort).2).1
    have hmerge := sorted_mergeEnds hmid_sorted
      (List.sorted_insertionSort epLE (newEndpointsFor dim ids proxies))
    have htake : ax.endpoints.take 1 = [startSentinel] := by rw [hmid]; rfl
    have htail : ax.endpoints.tail.dropLast = mid := by rw [hmid]; simp
    have hE : ax.endpoints.take 1 ++
        mergeEnds ax.endpoints.tail.dropLast
          (List.insertionSort epLE (newEndpointsFor dim ids proxies)) ++
        [endSentinel] =
        startSentinel :: (mergeEnds mid
          (List.insertionSort epLE (newEndpointsFor dim ids proxies)) ++
          [endSentinel]) := by
      rw [htake, htail]; rfl
    constructor
    · show List.Sorted epLE (ax.endpoints.take 1 ++ _ ++ [endSentinel])
      rw [hE]
      refine List.sorted_cons.mpr ⟨fun b _ => bot_le_value b, ?_⟩
      refine List.pairwise_append.mpr ⟨hmerge, List.pairwise_singleton _ _, ?_⟩
      intro a _ b hb
      rw [List.mem_singleton] at hb
      subst hb
      exact value_le_top a
    · exact ⟨mergeEnds mid
        (List.insertionSort epLE (newEndpointsFor dim ids proxies)), hE⟩

theorem Inv_update_endpoints {ax : SAPAxis} (dim : ℕ) (proxies : ℕ → Proxy)
    (h : ax.Inv) : (ax.update_endpoints dim proxies).Inv := by
  obtain ⟨hsort, mid, hmid⟩ := h
  rw [SAPAxis.update_endpoints]
  have htail : ax.endpoints.tail.dropLast = mid := by rw [hmid]; simp
  have htake : ax.endpoints.take 1 = [startSentinel] := by rw [hmid]; rfl
  have hdrop : ax.endpoints.drop (ax.endpoints.length - 1) = [endSentinel] := by
    rw [hmid]; simp
  rw [htail, htake, hdrop]
  obtain ⟨⟨ys, hys⟩, hpair⟩ := update_fold_inv mid
    (SAPEndpoint.refresh dim proxies) [startSentinel]
    ⟨[], by simp⟩ (List.pairwise_singleton _ _)
  constructor
  · show List.Sorted epLE (_ ++ _)
    refine List.pairwise_append.mpr ⟨?_, List.pairwise_singleton _ _, ?_⟩
    · exact List.pairwise_reverse.mpr (hpair.imp fun hab => hab)
    · intro a _ b hb
      rw [List.mem_singleton] at hb
      subst hb
      exact value_le_top a
  · refine ⟨ys.reverse, ?_⟩
    rw [hys, List.reverse_append]
    rfl

theorem Inv_delete_out_of_bounds_endpoints {ax : SAPAxis} (bits : ℕ → Bool)
    (h : ax.Inv) : (ax.delete_out_of_bounds_endpoints bits).Inv := by
  obtain ⟨hsort, mid, hmid⟩ := h
  rw [SAPAxis.delete_out_of_bounds_endpoints]
  constructor
  · exact hsort.filter _
  · refine ⟨mid.filter fun e => e.isSentinel || bits e.proxy, ?_⟩
    simp only [hmid]
    simp [List.filter_cons, List.filter_append, startSentinel, endSentinel,
      SAPEndpoint.isSentinel]

/-- C4 helper: the invariant holds for the freshly constructed axis. -/
theorem Inv_new (lo hi : ℚ) : (SAPAxis.new lo hi).Inv := by
  refine ⟨?_, [], rfl⟩
  show List.Sorted epLE [startSentinel, endSentinel]
  simp [List.sorted_cons, value_le_top]

/-- C4. Starting from a freshly constructed axis, the endpoint sequence stays
sorted ascending by value and bracketed by the two sentinels after any
sequence of `batch_insert`, `update_endpoints` and
`delete_out_of_bounds_endpoints` calls. -/
theorem sap_axis_invariant (lo hi : ℚ) (hle : lo ≤ hi) (ops : List SAPOp) :
    ((SAPAxis.new lo hi).applyOps ops).Inv := by
  have : ∀ (ax : SAPAxis), ax.Inv → (ax.applyOps ops).Inv := by
    induction ops with
    | nil => exact fun ax h => h
    | cons op ops ih =>
      intro ax h
      refine ih _ ?_
      cases op with
      | insert dim ids proxies => exact Inv_batch_insert dim ids proxies h
      | update dim proxies => exact Inv_update_endpoints dim proxies h
      | deleteEndpoints bits => exact Inv_delete_out_of_bounds_endpoints bits h
  exact this _ (Inv_new lo hi)

/-- C4 witness: a concrete axis, a batch insert, an update and a pruning. -/
theorem sap_axis_invariant_witness :
    (0 : ℚ) ≤ 10 ∧
      ((SAPAxis.new 0 10).applyOps
        [.insert 0 [0] fun _ => ⟨fun _ => 1, fun _ => 2⟩,
         .update 0 fun _ => ⟨fun _ => 3, fun _ => 4⟩,
         .deleteEndpoints fun _ => true]).Inv :=
  ⟨by norm_num, sap_axis_invariant 0 10 (by norm_num) _⟩

/-! ### C2: the `batch_insert` assertions -/

/-- C2 counterexample.  An axis with window `[0, 10]` accepts the insertion of
a proxy whose interval is `[-5, 5]`: both assertions pass even though the
inserted start bound `-5` lies outside the window, so `batch_insert` does not
reject every call inserting a bound outside `[min_bound, max_bound]`. -/
theorem batch_insert_asserts_not_containment :
    ((SAPAxis.new 0 10).batchInsertAssertsOk 0 [0]
        fun _ => ⟨fun _ => -5, fun _ => 5⟩) = true ∧
      ¬ ((SAPAxis.new 0 10).min_bound ≤
          ((fun _ => (⟨fun _ => -5, fun _ => 5⟩ : Proxy)) 0).mins 0) := by
  constructor
  · rfl
  · show ¬ ((0 : ℚ) ≤ -5)
    norm_num

/-- C2 (amended). `batch_insert` fails fast (asserts) at the call boundary
unless every new proxy's interval on the axis overlaps the window: its lower
bound must not exceed `max_bound` and its upper bound must not fall below
`min_bound`.  Containment of both bounds in the window is not required. -/
theorem batch_insert_asserts_iff (ax : SAPAxis) (dim : ℕ) (ids : List ℕ)
    (proxies : ℕ → Proxy) :
    ax.batchInsertAssertsOk dim ids proxies = true ↔
      ∀ id ∈ ids, (proxies id).mins dim ≤ ax.max_bound ∧
        ax.min_bound ≤ (proxies id).maxs dim := by
  simp [SAPAxis.batchInsertAssertsOk, List.all_eq_true]

/-! ### C9: `delete_out_of_bounds_proxies` is quiescent on a second run -/

theorem scanClear_bits_mono (cond : SAPEndpoint → Bool) :
    ∀ (l : List SAPEndpoint) (bits : ℕ → Bool) (p : ℕ),
      (scanClear cond l bits).1 p = true → bits p = true
  | [], _, _ => fun h => h
  | e :: rest, bits, p => fun h => by
    rw [scanClear] at h
    split at h
    · have h2 := scanClear_bits_mono cond rest _ p h
      by_cases hp : p = e.proxy
      · subst hp
        rw [Function.update_same] at h2
        exact absurd h2 (by simp)
      · rwa [Function.update_noteq hp] at h2
    · exact scanClear_bits_mono cond rest bits p h

theorem scanClear_clears (cond : SAPEndpoint → Bool) :
    ∀ (l : List SAPEndpoint) (bits : ℕ → Bool) (e : SAPEndpoint),
      e ∈ l → cond e = true → (scanClear cond l bits).1 e.proxy = false
  | [], _, _ => fun h _ => absurd h (List.not_mem_nil _)
  | e0 :: rest, bits, e => fun hmem hcond => by
    rw [scanClear]
    rcases List.mem_cons.1 hmem with rfl | hmem
    · split
      · rename_i hif
        cases hb : (scanClear cond rest
            (Function.update bits e.proxy false)).1 e.proxy with
        | false => simpa using hb
        | true =>
          have := scanClear_bits_mono cond rest _ _ hb
          rw [Function.update_same] at this
          exact absurd this (by simp)
      · rename_i hif
        rw [hcond] at hif
        simp only [Bool.true_and] at hif
        have hbits : bits e.proxy = false := by
          cases h : bits e.proxy with
          | false => rfl
          | true => exact absurd h hif
        cases hb : (scanClear cond rest bits).1 e.proxy with
        | false => rfl
        | true =>
          exact absurd (scanClear_bits_mono cond rest bits _ hb)
                (by rw [hbits]; simp)
    · split
      · exact scanClear_clears cond rest _ e hmem hcond
      · exact scanClear_clears cond rest bits e hmem hcond

theorem scanClear_noop (cond : SAPEndpoint → Bool) :
    ∀ (l : List SAPEndpoint) (bits : ℕ → Bool),
      (∀ e ∈ l, cond e = true → bits e.proxy = false) →
        scanClear cond l bits = (bits, 0)
  | [], _ => fun _ => rfl
  | e :: rest, bits => fun h => by
    rw [scanClear]
    have : (cond e && bits e.proxy) = false := by
      cases hc : cond e with
      | false => rfl
      | true => rw [h e (List.mem_cons_self _ _) hc]; rfl
    rw [this]
    simp only [Bool.false_eq_true, if_false]
    exact scanClear_noop cond rest bits fun x hx => h x (List.mem_cons_of_mem _ hx)

/-- Unfolded form of `delete_out_of_bounds_proxies` (front scan, then back
scan on the bits left by the front scan; the counts of the two scans add). -/
theorem delete_out_of_bounds_proxies_eq (ax : SAPAxis) (bits : ℕ → Bool) :
    ax.delete_out_of_bounds_proxies bits =
      ((scanClear (fun e => e.isStart)
          (ax.endpoints.reverse.takeWhile fun e =>
            decide (finVal ax.max_bound < e.value))
          (scanClear (fun e => e.isEnd)
            (ax.endpoints.takeWhile fun e =>
              decide (e.value < finVal ax.min_bound)) bits).1).1,
        (scanClear (fun e => e.isEnd)
          (ax.endpoints.takeWhile fun e =>
            decide (e.value < finVal ax.min_bound)) bits).2 +
        (scanClear (fun e => e.isStart)
          (ax.endpoints.reverse.takeWhile fun e =>
            decide (finVal ax.max_bound < e.value))
          (scanClear (fun e => e.isEnd)
            (ax.endpoints.takeWhile fun e =>
              decide (e.value < finVal ax.min_bound)) bits).1).2) := rfl

/-- C9. Running `delete_out_of_bounds_proxies` twice in a row — the second
call seeing the bitset produced by the first and the same (unchanged)
endpoint sequence — returns 0 from the second call. -/
theorem delete_out_of_bounds_proxies_idempotent (ax : SAPAxis)
    (bits : ℕ → Bool) :
    (ax.delete_out_of_bounds_proxies
      (ax.delete_out_of_bounds_proxies bits).1).2 = 0 := by
  have hfront : ∀ b, (ax.delete_out_of_bounds_proxies b).1 =
      (scanClear (fun e => e.isStart)
        (ax.endpoints.reverse.takeWhile fun e =>
          decide (finVal ax.max_bound < e.value))
        (scanClear (fun e => e.isEnd)
          (ax.endpoints.takeWhile fun e =>
            decide (e.value < finVal ax.min_bound)) b).1).1 :=
    fun b => by rw [delete_out_of_bounds_proxies_eq]
  set front := ax.endpoints.takeWhile fun e =>
    decide (e.value < finVal ax.min_bound) with hfrontdef
  set back := ax.endpoints.reverse.takeWhile fun e =>
    decide (finVal ax.max_bound < e.value) with hbackdef
  set b2 := (ax.delete_out_of_bounds_proxies bits).1 with hb2
  have hb2eq : b2 = (scanClear (fun e => e.isStart) back
      (scanClear (fun e => e.isEnd) front bits).1).1 := hfront bits
  have hfront2 : ∀ e ∈ front, SAPEndpoint.isEnd e = true →
      b2 e.proxy = false := by
    intro e he hc
    have h1 : (scanClear (fun e => e.isEnd) front bits).1 e.proxy = false :=
      scanClear_clears _ front bits e he hc
    cases hb : b2 e.proxy with
    | false => rfl
    | true =>
      have := scanClear_bits_mono (fun e => e.isStart) back
        (scanClear (fun e => e.isEnd) front bits).1 e.proxy (hb2eq ▸ hb)
      rw [h1] at this
      exact absurd this (by simp)
  have hback2 : ∀ e ∈ back, SAPEndpoint.isStart e = true →
      b2 e.proxy = false := by
    intro e he hc
    rw [hb2eq]
    exact scanClear_clears _ back _ e he hc
  rw [delete_out_of_bounds_proxies_eq]
  simp only [← hfrontdef, ← hbackdef]
  rw [scanClear_noop _ front b2 hfront2, scanClear_noop _ back b2 hback2]
  rfl

/-! ## Ground contact constraint
(`velocity_ground_constraint_with_manifold_friction.rs`)

3-dimensional build: `DIM = 3`, `MAX_MANIFOLD_POINTS = 4`, `AngVector = Vector`
and `gcross`/`gdot` are the cross and dot products.  Floats are embedded as
exact rationals. -/

structure Vec3 where
  x : ℚ
  y : ℚ
  z : ℚ
deriving DecidableEq

namespace Vec3

def zero : Vec3 := ⟨0, 0, 0⟩

instance : Add Vec3 := ⟨fun a b => ⟨a.x + b.x, a.y + b.y, a.z + b.z⟩⟩

instance : Neg Vec3 := ⟨fun a => ⟨-a.x, -a.y, -a.z⟩⟩

instance : Sub Vec3 := ⟨fun a b => ⟨a.x - b.x, a.y - b.y, a.z - b.z⟩⟩

/-- Scaling `v * q` of a vector by a scalar. -/
def smul (q : ℚ) (v : Vec3) : Vec3 := ⟨q * v.x, q * v.y, q * v.z⟩

/-- Dot product (`dot`/`gdot`). -/
def dot (a b : Vec3) : ℚ := a.x * b.x + a.y * b.y + a.z * b.z

/-- Cross product (`gcross` in dimension 3). -/
def cross (a b : Vec3) : Vec3 :=
  ⟨a.y * b.z - a.z * b.y, a.z * b.x - a.x * b.z, a.x * b.y - a.y * b.x⟩

end Vec3

/-- `crate::utils::inv`: the zero-guarded reciprocal, yielding 0 at 0. -/
def inv0 (x : ℚ) : ℚ := if x = 0 then 0 else x⁻¹

/-- simba's `simd_clamp` on one lane: `self.simd_max(min).simd_min(max)`. -/
def simd_clamp (x lo hi : ℚ) : ℚ := min (max x lo) hi

/-- `DeltaVel`, one slot of the shared delta-velocity buffer. -/
structure DeltaVel where
  linear : Vec3
  angular : Vec3
deriving DecidableEq

def DeltaVel.zero : DeltaVel := ⟨Vec3.zero, Vec3.zero⟩

/-- `VelocityConstraintElementPart`: one scalar degree of freedom. -/
structure VelocityConstraintElementPart where
  gcross2 : Vec3
  rhs : ℚ
  impulse : ℚ
  r : ℚ
deriving DecidableEq

def VelocityConstraintElementPart.zero : VelocityConstraintElementPart :=
  ⟨Vec3.zero, 0, 0, 0⟩

instance : Inhabited VelocityConstraintElementPart :=
  ⟨VelocityConstraintElementPart.zero⟩

/-- `VelocityGroundConstraintWithManifoldFriction`.  The fixed-size arrays
(`normal_parts : [_; MAX_MANIFOLD_POINTS]`, `tangent_parts : [_; DIM-1]`,
`twist_weights : [_; MAX_MANIFOLD_POINTS]`) are modelled as total functions;
only indices below 4 (resp. 2) are ever read or written by the code. -/
structure VelocityGroundConstraintWithManifoldFriction where
  dir1 : Vec3
  im2 : ℚ
  limit : ℚ
  mj_lambda2 : ℕ
  manifold_id : ℕ
  manifold_contact_id : ℕ
  num_contacts : ℕ
  normal_parts : ℕ → VelocityConstraintElementPart
  tangent_parts : ℕ → VelocityConstraintElementPart
  twist_part : VelocityConstraintElementPart
  twist_weights : ℕ → ℚ
  impulse_scale : ℚ

abbrev VGC := VelocityGroundConstraintWithManifoldFriction

instance : Inhabited VGC :=
  ⟨{ dir1 := Vec3.zero, im2 := 0, limit := 0, mj_lambda2 := 0,
     manifold_id := 0, manifold_contact_id := 0, num_contacts := 0,
     normal_parts := fun _ => VelocityConstraintElementPart.zero,
     tangent_parts := fun _ => VelocityConstraintElementPart.zero,
     twist_part := VelocityConstraintElementPart.zero,
     twist_weights := fun _ => 0, impulse_scale := 0 }⟩

/-- `for i in 0..n` with loop body `f`: applies `f 0`, then `f 1`, … -/
def iterSteps {σ : Type} (f : ℕ → σ → σ) : ℕ → σ → σ
  | 0, s => s
  | n + 1, s => f n (iterSteps f n s)

/-- The unrolled four-term sum of normal impulses computed by `solve` for the
friction limit and by `writeback_impulses` for the denominator. -/
def normalImpulseSum (c : VGC) : ℚ :=
  (c.normal_parts 0).impulse + (c.normal_parts 1).impulse +
    (c.normal_parts 2).impulse + (c.normal_parts 3).impulse

/-- The unrolled four-term weighted sum computed by `solve` for the twist
limit. -/
def twistImpulseSum (c : VGC) : ℚ :=
  (c.normal_parts 0).impulse * c.twist_weights 0 +
    (c.normal_parts 1).impulse * c.twist_weights 1 +
    (c.normal_parts 2).impulse * c.twist_weights 2 +
    (c.normal_parts 3).impulse * c.twist_weights 3

/-- One iteration of the friction loop of `solve` (`for j in 0..DIM-1`) on
the state (constraint, local copy of the body's delta velocity).  `ob` models
`orthonormal_basis` (the `WBasis` utility, which is not under `src/`): it is
an arbitrary function giving the `DIM-1` tangent directions of a normal. -/
def solveTangentStep (ob : Vec3 → ℕ → Vec3) (friction_limit : ℚ) (j : ℕ)
    (s : VGC × DeltaVel) : VGC × DeltaVel :=
  let c := s.1
  let mj := s.2
  let t := ob c.dir1 j
  let elt := c.tangent_parts j
  let dimpulse := -(Vec3.dot t mj.linear) + Vec3.dot elt.gcross2 mj.angular +
    elt.rhs
  let new_impulse := simd_clamp (elt.impulse - elt.r * dimpulse)
    (-friction_limit) friction_limit
  let dlambda := new_impulse - elt.impulse
  let newElt := { elt with impulse := new_impulse }
  ({ c with tangent_parts := Function.update c.tangent_parts j newElt },
   { linear := mj.linear + Vec3.smul (-c.im2 * dlambda) t,
     angular := mj.angular + Vec3.smul dlambda elt.gcross2 })

/-- One iteration of the non-penetration loop of `solve`
(`for i in 0..num_contacts`). -/
def solveNormalStep (i : ℕ) (s : VGC × DeltaVel) : VGC × DeltaVel :=
  let c := s.1
  let mj := s.2
  let elt := c.normal_parts i
  let dimpulse := -(Vec3.dot c.dir1 mj.linear) +
    Vec3.dot elt.gcross2 mj.angular + elt.rhs
  let new_impulse := max (elt.impulse * c.impulse_scale - elt.r * dimpulse) 0
  let dlambda := new_impulse - elt.impulse
  let newElt := { elt with impulse := new_impulse }
  ({ c with normal_parts := Function.update c.normal_parts i newElt },
   { linear := mj.linear + Vec3.smul (-c.im2 * dlambda) c.dir1,
     angular := mj.angular + Vec3.smul dlambda elt.gcross2 })

/-- The twist block of `solve`. -/
def solveTwistStep (s : VGC × DeltaVel) : VGC × DeltaVel :=
  let c := s.1
  let mj := s.2
  let twist_limit := c.limit * twistImpulseSum c
  let dimpulse := Vec3.dot c.twist_part.gcross2 mj.angular + c.twist_part.rhs
  let new_impulse := simd_clamp (c.twist_part.impulse -
    c.twist_part.r * dimpulse) (-twist_limit) twist_limit
  let dlambda := new_impulse - c.twist_part.impulse
  ({ c with twist_part := { c.twist_part with impulse := new_impulse } },
   { mj with angular := mj.angular + Vec3.smul dlambda c.twist_part.gcross2 })

/-- `solve`: one relaxation pass — friction, then non-penetration, then twist
— reading and writing only the body's slot of the shared buffer. -/
def VelocityGroundConstraintWithManifoldFriction.solve (ob : Vec3 → ℕ → Vec3)
    (c : VGC) (mj_lambdas : ℕ → DeltaVel) : VGC × (ℕ → DeltaVel) :=
  let mj0 := mj_lambdas c.mj_lambda2
  let friction_limit := c.limit * normalImpulseSum c
  let s1 := iterSteps (solveTangentStep ob friction_limit) 2 (c, mj0)
  let s2 := iterSteps solveNormalStep s1.1.num_contacts s1
  let s3 := solveTwistStep s2
  (s3.1, Function.update mj_lambdas c.mj_lambda2 s3.2)

/-- `n` consecutive `solve` calls threading the shared buffer. -/
def solveN (ob : Vec3 → ℕ → Vec3) :
    ℕ → VGC × (ℕ → DeltaVel) → VGC × (ℕ → DeltaVel)
  | 0, s => s
  | n + 1, s =>
    let s' := solveN ob n s
    VelocityGroundConstraintWithManifoldFriction.solve ob s'.1 s'.2

/-- The normal-part accumulation of `warmstart`. -/
def warmstartNormalStep (c : VGC) (i : ℕ) (mj : DeltaVel) : DeltaVel :=
  { linear := mj.linear +
      Vec3.smul (-c.im2 * (c.normal_parts i).impulse) c.dir1,
    angular := mj.angular +
      Vec3.smul (c.normal_parts i).impulse (c.normal_parts i).gcross2 }

/-- The tangent-part accumulation of `warmstart`. -/
def warmstartTangentStep (ob : Vec3 → ℕ → Vec3) (c : VGC) (j : ℕ)
    (mj : DeltaVel) : DeltaVel :=
  { linear := mj.linear +
      Vec3.smul (-c.im2 * (c.tangent_parts j).impulse) (ob c.dir1 j),
    angular := mj.angular +
      Vec3.smul (c.tangent_parts j).impulse (c.tangent_parts j).gcross2 }

/-- `warmstart`: apply every stored impulse to the body's shared slot.  The
constraint itself is read-only (`&self`). -/
def VelocityGroundConstraintWithManifoldFriction.warmstart
    (ob : Vec3 → ℕ → Vec3) (c : VGC) (mj_lambdas : ℕ → DeltaVel) :
    ℕ → DeltaVel :=
  let acc0 := iterSteps (warmstartNormalStep c) c.num_contacts DeltaVel.zero
  let acc1 := iterSteps (warmstartTangentStep ob c) 2 acc0
  let acc : DeltaVel := { acc1 with
    angular := acc1.angular +
      Vec3.smul c.twist_part.impulse c.twist_part.gcross2 }
  Function.update mj_lambdas c.mj_lambda2
    { linear := (mj_lambdas c.mj_lambda2).linear + acc.linear,
      angular := (mj_lambdas c.mj_lambda2).angular + acc.angular }

/-- Per-contact persisted solver data (`manifold_point.data`).  The
two-component `tangent_impulse` array is modelled as a total function of the
component index. -/
structure ContactData where
  impulse : ℚ
  tangent_impulse : ℕ → ℚ

def ContactData.zero : ContactData := ⟨0, fun _ => 0⟩

instance : Inhabited ContactData := ⟨ContactData.zero⟩

/-- A solver contact of the manifold. -/
structure SolverContact where
  point : Vec3
  dist : ℚ
  friction : ℚ
  restitution : ℚ
  data : ContactData

instance : Inhabited SolverContact := ⟨⟨Vec3.zero, 0, 0, 0, ContactData.zero⟩⟩

/-- The contact-manifold fields consumed and produced by this constraint.
`points` is the persisted per-point data written by `writeback_impulses`
(`manifold.points[k].data`), modelled as a total function of the point
index. -/
structure ContactManifold where
  body1 : ℕ
  body2 : ℕ
  normal : Vec3
  solver_contacts : List SolverContact
  twist_impulse : ℚ
  warmstart_multiplier : ℚ
  constraint_index : ℕ
  points : ℕ → ContactData

/-- `writeback_impulses`: write every normal element's impulse to its point,
redistribute the two shared tangent impulses in proportion to each point's
share of the (zero-guarded) total normal impulse, and write the twist
impulse to the manifold. -/
def VelocityGroundConstraintWithManifoldFriction.writeback_impulses (c : VGC)
    (manifolds_all : ℕ → ContactManifold) : ℕ → ContactManifold :=
  let manifold := manifolds_all c.manifold_id
  let denom := inv0 (normalImpulseSum c)
  let pts := iterSteps
    (fun k p => Function.update p (c.manifold_contact_id + k)
      { impulse := (c.normal_parts k).impulse,
        tangent_impulse := fun j =>
          (c.tangent_parts j).impulse * ((c.normal_parts k).impulse * denom) })
    c.num_contacts manifold.points
  Function.update manifolds_all c.manifold_id
    { manifold with points := pts, twist_impulse := c.twist_part.impulse }

/-- The rigid-body fields read by `generate`.  The
`effective_world_inv_inertia_sqrt` operator is opaque at this boundary and
modelled as a vector transform (`transform_vector`). -/
structure RigidBody where
  is_dynamic : Bool
  effective_inv_mass : ℚ
  inv_inertia_sqrt : Vec3 → Vec3
  linvel : Vec3
  angvel : Vec3
  world_com : Vec3
  island_offset : ℕ

/-- `slice::chunks(MAX_MANIFOLD_POINTS)` with `MAX_MANIFOLD_POINTS = 4`:
successive chunks of four elements, the last chunk possibly shorter (written
with explicit patterns so the recursion is structural). -/
def chunks4 {α : Type} : List α → List (List α)
  | [] => []
  | [a] => [[a]]
  | [a, b] => [[a, b]]
  | [a, b, c] => [[a, b, c]]
  | a :: b :: c :: d :: rest => [a, b, c, d] :: chunks4 rest

/-- One constraint instance of `generate`, built from one chunk of at most
four solver contacts (the body of the `for (l, manifold_points)` loop).
`erp`, `cfm` and `impulse_scale` are the outputs of
`SpringRegularization::default().erp_cfm_impulse_scale(params.dt)` — their
derivation lives outside `src/`, so they enter as parameters.  `dist` models
`na::distance`, also external.  The constraint's `limit` is assigned once per
contact and thus ends as the last contact's friction coefficient (0 when the
chunk is empty, matching the zeroed initialiser); array slots beyond the
chunk length keep their zero initialisation, matching the zeroed arrays the
Rust code starts from. -/
def generateOne (ob : Vec3 → ℕ → Vec3) (dist : Vec3 → Vec3 → ℚ)
    (erp cfm impulse_scale inv_dt restitution_velocity_threshold : ℚ)
    (manifold_id : ℕ) (twist_impulse warmstart_coeff : ℚ)
    (rb1 rb2 : RigidBody) (force_dir1 : Vec3)
    (l : ℕ) (manifold_points : List SolverContact) : VGC :=
  let n : ℚ := (manifold_points.length : ℚ)
  let manifold_center := manifold_points.foldl
    (fun acc p => acc + Vec3.smul (1 / n) p.point) Vec3.zero
  let tangent_impulses : ℕ → ℚ := fun j =>
    manifold_points.foldl (fun a p => a + p.data.tangent_impulse j) 0
  let normalPart := fun (p : SolverContact) =>
    let dp1 := p.point - rb1.world_com
    let dp2 := p.point - rb2.world_com
    let vel1 := rb1.linvel + Vec3.cross rb1.angvel dp1
    let vel2 := rb2.linvel + Vec3.cross rb2.angvel dp2
    let gcross2 := rb2.inv_inertia_sqrt (Vec3.cross dp2 (-force_dir1))
    let r := (cfm + rb2.effective_inv_mass + Vec3.dot gcross2 gcross2)⁻¹
    let rhs0 := Vec3.dot (vel1 - vel2) force_dir1
    let rhs1 := if rhs0 ≤ -restitution_velocity_threshold
      then rhs0 + p.restitution * rhs0 else rhs0
    let rhs := if p.dist < 0 then rhs1 + p.dist * erp
      else rhs1 + p.dist * inv_dt
    ({ gcross2 := gcross2, rhs := rhs,
       impulse := p.data.impulse * warmstart_coeff, r := r } :
      VelocityConstraintElementPart)
  let tangentPart := fun (j : ℕ) =>
    let dp1 := manifold_center - rb1.world_com
    let dp2 := manifold_center - rb2.world_com
    let vel1 := rb1.linvel + Vec3.cross rb1.angvel dp1
    let vel2 := rb2.linvel + Vec3.cross rb2.angvel dp2
    let t := ob force_dir1 j
    let gcross2 := rb2.inv_inertia_sqrt (Vec3.cross dp2 (-t))
    let r := (rb2.effective_inv_mass + Vec3.dot gcross2 gcross2)⁻¹
    ({ gcross2 := gcross2, rhs := Vec3.dot (vel1 - vel2) t,
       impulse := tangent_impulses j * warmstart_coeff, r := r } :
      VelocityConstraintElementPart)
  let twist_gcross2 := rb2.inv_inertia_sqrt (-force_dir1)
  { dir1 := force_dir1
    im2 := rb2.effective_inv_mass
    limit := match manifold_points.getLast? with
      | some p => p.friction
      | none => 0
    mj_lambda2 := rb2.island_offset
    manifold_id := manifold_id
    manifold_contact_id := l * 4
    num_contacts := manifold_points.length
    normal_parts := fun k =>
      if h : k < manifold_points.length then
        normalPart (manifold_points.get ⟨k, h⟩)
      else VelocityConstraintElementPart.zero
    tangent_parts := fun j =>
      if j < 2 then tangentPart j else VelocityConstraintElementPart.zero
    twist_part :=
      { gcross2 := twist_gcross2,
        rhs := Vec3.dot (rb1.angvel - rb2.angvel) force_dir1,
        impulse := twist_impulse * warmstart_coeff,
        r := inv0 (Vec3.dot twist_gcross2 twist_gcross2) }
    twist_weights := fun k =>
      if h : k < manifold_points.length then
        dist (manifold_points.get ⟨k, h⟩).point manifold_center
      else 0
    impulse_scale := impulse_scale }

/-- `generate`: pick the dynamic body for slot 2 (swapping when `body2` is
non-dynamic), fix the force direction, and build one constraint per chunk of
at most four solver contacts.  The push/overwrite output mode only selects
where each constraint is stored; the produced list holds the instances in
chunk order. -/
def generate (ob : Vec3 → ℕ → Vec3) (dist : Vec3 → Vec3 → ℚ)
    (erp cfm impulse_scale inv_dt restitution_velocity_threshold
      warmstart_coeff : ℚ)
    (bodies : ℕ → RigidBody) (manifold_id : ℕ) (manifold : ContactManifold) :
    List VGC :=
  let rb1i := bodies manifold.body1
  let rb2i := bodies manifold.body2
  let flipped := !rb2i.is_dynamic
  let rb1 := if flipped then rb2i else rb1i
  let rb2 := if flipped then rb1i else rb2i
  let force_dir1 := if flipped then manifold.normal else -manifold.normal
  let wc := manifold.warmstart_multiplier * warmstart_coeff
  (List.range (chunks4 manifold.solver_contacts).length).map fun l =>
    generateOne ob dist erp cfm impulse_scale inv_dt
      restitution_velocity_threshold manifold_id manifold.twist_impulse wc
      rb1 rb2 force_dir1 l ((chunks4 manifold.solver_contacts).getD l [])

/-! ### Stage views and frame lemmas for `solve` -/

/-- The friction stage of `solve` (local state after the tangent loop). -/
def solveS1 (ob : Vec3 → ℕ → Vec3) (c : VGC) (mjs : ℕ → DeltaVel) :
    VGC × DeltaVel :=
  iterSteps (solveTangentStep ob (c.limit * normalImpulseSum c)) 2
    (c, mjs c.mj_lambda2)

/-- The non-penetration stage of `solve`. -/
def solveS2 (ob : Vec3 → ℕ → Vec3) (c : VGC) (mjs : ℕ → DeltaVel) :
    VGC × DeltaVel :=
  iterSteps solveNormalStep (solveS1 ob c mjs).1.num_contacts
    (solveS1 ob c mjs)

/-- The twist stage of `solve`. -/
def solveS3 (ob : Vec3 → ℕ → Vec3) (c : VGC) (mjs : ℕ → DeltaVel) :
    VGC × DeltaVel :=
  solveTwistStep (solveS2 ob c mjs)

theorem solve_eq_stages (ob : Vec3 → ℕ → Vec3) (c : VGC)
    (mjs : ℕ → DeltaVel) :
    c.solve ob mjs =
      ((solveS3 ob c mjs).1,
        Function.update mjs c.mj_lambda2 (solveS3 ob c mjs).2) := rfl

theorem tangentIter_normal_parts (ob : Vec3 → ℕ → Vec3) (fl : ℚ) :
    ∀ (n : ℕ) (s : VGC × DeltaVel),
      (iterSteps (solveTangentStep ob fl) n s).1.normal_parts =
        s.1.normal_parts
  | 0, _ => rfl
  | n + 1, s => tangentIter_normal_parts ob fl n s

theorem tangentIter_num_contacts (ob : Vec3 → ℕ → Vec3) (fl : ℚ) :
    ∀ (n : ℕ) (s : VGC × DeltaVel),
      (iterSteps (solveTangentStep ob fl) n s).1.num_contacts =
        s.1.num_contacts
  | 0, _ => rfl
  | n + 1, s => tangentIter_num_contacts ob fl n s

theorem tangentIter_limit (ob : Vec3 → ℕ → Vec3) (fl : ℚ) :
    ∀ (n : ℕ) (s : VGC × DeltaVel),
      (iterSteps (solveTangentStep ob fl) n s).1.limit = s.1.limit
  | 0, _ => rfl
  | n + 1, s => tangentIter_limit ob fl n s

theorem tangentIter_twist_weights (ob : Vec3 → ℕ → Vec3) (fl : ℚ) :
    ∀ (n : ℕ) (s : VGC × DeltaVel),
      (iterSteps (solveTangentStep ob fl) n s).1.twist_weights =
        s.1.twist_weights
  | 0, _ => rfl
  | n + 1, s => tangentIter_twist_weights ob fl n s

theorem tangentIter_twist_part (ob : Vec3 → ℕ → Vec3) (fl : ℚ) :
    ∀ (n : ℕ) (s : VGC × DeltaVel),
      (iterSteps (solveTangentStep ob fl) n s).1.twist_part = s.1.twist_part
  | 0, _ => rfl
  | n + 1, s => tangentIter_twist_part ob fl n s

theorem tangentIter_mj_lambda2 (ob : Vec3 → ℕ → Vec3) (fl : ℚ) :
    ∀ (n : ℕ) (s : VGC × DeltaVel),
      (iterSteps (solveTangentStep ob fl) n s).1.mj_lambda2 = s.1.mj_lambda2
  | 0, _ => rfl
  | n + 1, s => tangentIter_mj_lambda2 ob fl n s

theorem normalIter_tangent_parts :
    ∀ (n : ℕ) (s : VGC × DeltaVel),
      (iterSteps solveNormalStep n s).1.tangent_parts = s.1.tangent_parts
  | 0, _ => rfl
  | n + 1, s => normalIter_tangent_parts n s

theorem normalIter_num_contacts :
    ∀ (n : ℕ) (s : VGC × DeltaVel),
      (iterSteps solveNormalStep n s).1.num_contacts = s.1.num_contacts
  | 0, _ => rfl
  | n + 1, s => normalIter_num_contacts n s

theorem normalIter_limit :
    ∀ (n : ℕ) (s : VGC × DeltaVel),
      (iterSteps solveNormalStep n s).1.limit = s.1.limit
  | 0, _ => rfl
  | n + 1, s => normalIter_limit n s

theorem normalIter_twist_weights :
    ∀ (n : ℕ) (s : VGC × DeltaVel),
      (iterSteps solveNormalStep n s).1.twist_weights = s.1.twist_weights
  | 0, _ => rfl
  | n + 1, s => normalIter_twist_weights n s

theorem normalIter_twist_part :
    ∀ (n : ℕ) (s : VGC × DeltaVel),
      (iterSteps solveNormalStep n s).1.twist_part = s.1.twist_part
  | 0, _ => rfl
  | n + 1, s => normalIter_twist_part n s

theorem normalIter_mj_lambda2 :
    ∀ (n : ℕ) (s : VGC × DeltaVel),
      (iterSteps solveNormalStep n s).1.mj_lambda2 = s.1.mj_lambda2
  | 0, _ => rfl
  | n + 1, s => normalIter_mj_lambda2 n s

/-- Normal slots at or beyond the loop bound are left untouched. -/
theorem normalIter_untouched :
    ∀ (n : ℕ) (s : VGC × DeltaVel) (i : ℕ), n ≤ i →
      (iterSteps solveNormalStep n s).1.normal_parts i = s.1.normal_parts i
  | 0, _, _ => fun _ => rfl
  | n + 1, s, i => fun hni => by
    have hne : i ≠ n := by omega
    have : (iterSteps solveNormalStep (n + 1) s).1.normal_parts i =
        (iterSteps solveNormalStep n s).1.normal_parts i := by
      show (Function.update (iterSteps solveNormalStep n s).1.normal_parts n _)
          i = _
      rw [Function.update_noteq hne]
    rw [this]
    exact normalIter_untouched n s i (by omega)

/-- After the non-penetration loop, every processed slot's impulse is
non-negative (the unilateral `max 0` floor). -/
theorem normalIter_nonneg :
    ∀ (n : ℕ) (s : VGC × DeltaVel) (i : ℕ), i < n →
      0 ≤ ((iterSteps solveNormalStep n s).1.normal_parts i).impulse
  | 0, _, _ => fun h => absurd h (Nat.not_lt_zero _)
  | n + 1, s, i => fun hni => by
    by_cases hi : i = n
    · subst hi
      have : (iterSteps solveNormalStep (i + 1) s).1.normal_parts i =
          { (iterSteps solveNormalStep i s).1.normal_parts i with
            impulse := max
              (((iterSteps solveNormalStep i s).1.normal_parts i).impulse *
                  (iterSteps solveNormalStep i s).1.impulse_scale -
                ((iterSteps solveNormalStep i s).1.normal_parts i).r *
                  (-(Vec3.dot (iterSteps solveNormalStep i s).1.dir1
                      (iterSteps solveNormalStep i s).2.linear) +
                    Vec3.dot
                      ((iterSteps solveNormalStep i s).1.normal_parts i).gcross2
                      (iterSteps solveNormalStep i s).2.angular +
                    ((iterSteps solveNormalStep i s).1.normal_parts i).rhs))
              0 } := by
        show (Function.update
            (iterSteps solveNormalStep i s).1.normal_parts i _) i = _
        rw [Function.update_same]
      rw [this]
      exact le_max_right _ _
    · have : (iterSteps solveNormalStep (n + 1) s).1.normal_parts i =
          (iterSteps solveNormalStep n s).1.normal_parts i := by
        show (Function.update
            (iterSteps solveNormalStep n s).1.normal_parts n _) i = _
        rw [Function.update_noteq hi]
      rw [this]
      exact normalIter_nonneg n s i (by omega)

/-- One lane of `simd_clamp` into a symmetric interval stays within it. -/
theorem abs_simd_clamp_le (x l : ℚ) (hl : 0 ≤ l) :
    |simd_clamp x (-l) l| ≤ l := by
  have h1 : -l ≤ max x (-l) := le_max_right x (-l)
  have h2 : -l ≤ l := le_trans (neg_nonpos.mpr hl) hl
  exact abs_le.mpr ⟨le_min h1 h2, min_le_right _ _⟩

/-- After the friction loop, every processed tangent impulse is clamped into
the symmetric friction-limit interval. -/
theorem tangentIter_bound (ob : Vec3 → ℕ → Vec3) (fl : ℚ) (hfl : 0 ≤ fl) :
    ∀ (n : ℕ) (s : VGC × DeltaVel) (j : ℕ), j < n →
      |((iterSteps (solveTangentStep ob fl) n s).1.tangent_parts j).impulse| ≤
        fl
  | 0, _, _ => fun h => absurd h (Nat.not_lt_zero _)
  | n + 1, s, j => fun hjn => by
    by_cases hj : j = n
    · subst hj
      have : (iterSteps (solveTangentStep ob fl) (j + 1) s).1.tangent_parts j =
          { (iterSteps (solveTangentStep ob fl) j s).1.tangent_parts j with
            impulse := simd_clamp
              (((iterSteps (solveTangentStep ob fl) j s).1.tangent_parts
                    j).impulse -
                ((iterSteps (solveTangentStep ob fl) j s).1.tangent_parts j).r *
                  (-(Vec3.dot
                      (ob (iterSteps (solveTangentStep ob fl) j s).1.dir1 j)
                      (iterSteps (solveTangentStep ob fl) j s).2.linear) +
                    Vec3.dot
                      ((iterSteps (solveTangentStep ob fl) j
                          s).1.tangent_parts j).gcross2
                      (iterSteps (solveTangentStep ob fl) j s).2.angular +
                    ((iterSteps (solveTangentStep ob fl) j
                        s).1.tangent_parts j).rhs))
              (-fl) fl } := by
        show (Function.update
            (iterSteps (solveTangentStep ob fl) j s).1.tangent_parts j _) j =
          _
        rw [Function.update_same]
      rw [this]
      exact abs_simd_clamp_le _ fl hfl
    · have : (iterSteps (solveTangentStep ob fl) (n + 1) s).1.tangent_parts j =
          (iterSteps (solveTangentStep ob fl) n s).1.tangent_parts j := by
        show (Function.update
            (iterSteps (solveTangentStep ob fl) n s).1.tangent_parts n _) j =
          _
        rw [Function.update_noteq hj]
      rw [this]
      exact tangentIter_bound ob fl hfl n s j (by omega)

theorem solve_num_contacts (ob : Vec3 → ℕ → Vec3) (c : VGC)
    (mjs : ℕ → DeltaVel) : (c.solve ob mjs).1.num_contacts = c.num_contacts := by
  have h1 : (c.solve ob mjs).1.num_contacts =
      (solveS2 ob c mjs).1.num_contacts := rfl
  rw [h1]
  have h2 : (solveS2 ob c mjs).1.num_contacts =
      (solveS1 ob c mjs).1.num_contacts := normalIter_num_contacts _ _
  rw [h2]
  exact tangentIter_num_contacts ob _ 2 _

theorem solve_limit (ob : Vec3 → ℕ → Vec3) (c : VGC) (mjs : ℕ → DeltaVel) :
    (c.solve ob mjs).1.limit = c.limit := by
  have h1 : (c.solve ob mjs).1.limit = (solveS2 ob c mjs).1.limit := rfl
  rw [h1]
  have h2 : (solveS2 ob c mjs).1.limit = (solveS1 ob c mjs).1.limit :=
    normalIter_limit _ _
  rw [h2]
  exact tangentIter_limit ob _ 2 _

theorem solve_twist_weights (ob : Vec3 → ℕ → Vec3) (c : VGC)
    (mjs : ℕ → DeltaVel) :
    (c.solve ob mjs).1.twist_weights = c.twist_weights := by
  have h1 : (c.solve ob mjs).1.twist_weights =
      (solveS2 ob c mjs).1.twist_weights := rfl
  rw [h1]
  have h2 : (solveS2 ob c mjs).1.twist_weights =
      (solveS1 ob c mjs).1.twist_weights := normalIter_twist_weights _ _
  rw [h2]
  exact tangentIter_twist_weights ob _ 2 _

theorem solve_mj_lambda2 (ob : Vec3 → ℕ → Vec3) (c : VGC)
    (mjs : ℕ → DeltaVel) : (c.solve ob mjs).1.mj_lambda2 = c.mj_lambda2 := by
  have h1 : (c.solve ob mjs).1.mj_lambda2 =
      (solveS2 ob c mjs).1.mj_lambda2 := rfl
  rw [h1]
  have h2 : (solveS2 ob c mjs).1.mj_lambda2 =
      (solveS1 ob c mjs).1.mj_lambda2 := normalIter_mj_lambda2 _ _
  rw [h2]
  exact tangentIter_mj_lambda2 ob _ 2 _

/-- Normal slots at or beyond `num_contacts` are untouched by `solve`. -/
theorem solve_normal_untouched (ob : Vec3 → ℕ → Vec3) (c : VGC)
    (mjs : ℕ → DeltaVel) (i : ℕ) (hi : c.num_contacts ≤ i) :
    (c.solve ob mjs).1.normal_parts i = c.normal_parts i := by
  have h1 : (c.solve ob mjs).1.normal_parts i =
      (solveS2 ob c mjs).1.normal_parts i := rfl
  rw [h1]
  have hcount : (solveS1 ob c mjs).1.num_contacts = c.num_contacts :=
    tangentIter_num_contacts ob _ 2 _
  have h2 : (solveS2 ob c mjs).1.normal_parts i =
      (solveS1 ob c mjs).1.normal_parts i :=
    normalIter_untouched _ _ i (by rw [hcount]; exact hi)
  rw [h2]
  have h3 : (solveS1 ob c mjs).1.normal_parts = c.normal_parts :=
    tangentIter_normal_parts ob _ 2 _
  rw [h3]

/-- After `solve`, every normal impulse is non-negative whenever the entry
impulses were. -/
theorem solve_normal_nonneg (ob : Vec3 → ℕ → Vec3) (c : VGC)
    (mjs : ℕ → DeltaVel) (himp : ∀ i, 0 ≤ (c.normal_parts i).impulse) :
    ∀ i, 0 ≤ ((c.solve ob mjs).1.normal_parts i).impulse := by
  intro i
  by_cases hi : i < c.num_contacts
  · have h1 : (c.solve ob mjs).1.normal_parts i =
        (solveS2 ob c mjs).1.normal_parts i := rfl
    rw [h1]
    have hcount : (solveS1 ob c mjs).1.num_contacts = c.num_contacts :=
      tangentIter_num_contacts ob _ 2 _
    exact normalIter_nonneg _ _ i (by rw [hcount]; exact hi)
  · rw [solve_normal_untouched ob c mjs i (le_of_not_lt hi)]
    exact himp i

/-- After `solve`, every active normal impulse is non-negative,
unconditionally. -/
theorem solve_normal_nonneg_active (ob : Vec3 → ℕ → Vec3) (c : VGC)
    (mjs : ℕ → DeltaVel) (i : ℕ) (hi : i < c.num_contacts) :
    0 ≤ ((c.solve ob mjs).1.normal_parts i).impulse := by
  have h1 : (c.solve ob mjs).1.normal_parts i =
      (solveS2 ob c mjs).1.normal_parts i := rfl
  rw [h1]
  have hcount : (solveS1 ob c mjs).1.num_contacts = c.num_contacts :=
    tangentIter_num_contacts ob _ 2 _
  exact normalIter_nonneg _ _ i (by rw [hcount]; exact hi)

/-- The tangent impulses after `solve` are the ones produced by the friction
loop (the later stages do not touch them). -/
theorem solve_tangent_parts (ob : Vec3 → ℕ → Vec3) (c : VGC)
    (mjs : ℕ → DeltaVel) :
    (c.solve ob mjs).1.tangent_parts = (solveS1 ob c mjs).1.tangent_parts := by
  have h1 : (c.solve ob mjs).1.tangent_parts =
      (solveS2 ob c mjs).1.tangent_parts := rfl
  rw [h1]
  exact normalIter_tangent_parts _ _

/-- The tangent bound of `solve`: each of the two shared tangent impulses is
clamped into the friction-limit interval computed from the normal impulses
held at call entry. -/
theorem solve_tangent_bound (ob : Vec3 → ℕ → Vec3) (c : VGC)
    (mjs : ℕ → DeltaVel) (hlim : 0 ≤ c.limit)
    (himp : ∀ i, 0 ≤ (c.normal_parts i).impulse) (j : ℕ) (hj : j < 2) :
    |((c.solve ob mjs).1.tangent_parts j).impulse| ≤
      c.limit * normalImpulseSum c := by
  have hfl : 0 ≤ c.limit * normalImpulseSum c := by
    refine mul_nonneg hlim ?_
    have := himp 0; have := himp 1; have := himp 2; have := himp 3
    unfold normalImpulseSum
    positivity
  rw [solve_tangent_parts]
  exact tangentIter_bound ob _ hfl 2 _ j hj

/-- The twist bound of `solve`: the twist impulse is clamped into the limit
interval computed from the normal impulses held when `solve` returns. -/
theorem solve_twist_bound (ob : Vec3 → ℕ → Vec3) (c : VGC)
    (mjs : ℕ → DeltaVel) (hlim : 0 ≤ c.limit)
    (hw : ∀ i, 0 ≤ c.twist_weights i)
    (himp : ∀ i, 0 ≤ (c.normal_parts i).impulse) :
    |(c.solve ob mjs).1.twist_part.impulse| ≤
      c.limit * twistImpulseSum (c.solve ob mjs).1 := by
  have hS2w : (solveS2 ob c mjs).1.twist_weights = c.twist_weights := by
    have h2 : (solveS2 ob c mjs).1.twist_weights =
        (solveS1 ob c mjs).1.twist_weights := normalIter_twist_weights _ _
    rw [h2]
    exact tangentIter_twist_weights ob _ 2 _
  have hS2lim : (solveS2 ob c mjs).1.limit = c.limit := by
    have h2 : (solveS2 ob c mjs).1.limit = (solveS1 ob c mjs).1.limit :=
      normalIter_limit _ _
    rw [h2]
    exact tangentIter_limit ob _ 2 _
  have hS2imp : ∀ i, 0 ≤ ((solveS2 ob c mjs).1.normal_parts i).impulse := by
    intro i
    have hcount : (solveS1 ob c mjs).1.num_contacts = c.num_contacts :=
      tangentIter_num_contacts ob _ 2 _
    by_cases hi : i < c.num_contacts
    · exact normalIter_nonneg _ _ i (by rw [hcount]; exact hi)
    · have hu : (solveS2 ob c mjs).1.normal_parts i =
          (solveS1 ob c mjs).1.normal_parts i :=
        normalIter_untouched _ _ i (by rw [hcount]; exact le_of_not_lt hi)
      rw [hu]
      have h3 : (solveS1 ob c mjs).1.normal_parts = c.normal_parts :=
        tangentIter_normal_parts ob _ 2 _
      rw [h3]
      exact himp i
  have htl : 0 ≤ (solveS2 ob c mjs).1.limit *
      twistImpulseSum (solveS2 ob c mjs).1 := by
    refine mul_nonneg (by rw [hS2lim]; exact hlim) ?_
    have h0 := hS2imp 0; have h1 := hS2imp 1
    have h2 := hS2imp 2; have h3 := hS2imp 3
    have hw' : ∀ i, 0 ≤ (solveS2 ob c mjs).1.twist_weights i := by
      intro i; rw [hS2w]; exact hw i
    have hw0 := hw' 0; have hw1 := hw' 1; have hw2 := hw' 2; have hw3 := hw' 3
    unfold twistImpulseSum
    positivity
  have himpulse : (c.solve ob mjs).1.twist_part.impulse =
      simd_clamp ((solveS2 ob c mjs).1.twist_part.impulse -
          (solveS2 ob c mjs).1.twist_part.r *
            (Vec3.dot (solveS2 ob c mjs).1.twist_part.gcross2
                (solveS2 ob c mjs).2.angular +
              (solveS2 ob c mjs).1.twist_part.rhs))
        (-((solveS2 ob c mjs).1.limit * twistImpulseSum (solveS2 ob c mjs).1))
        ((solveS2 ob c mjs).1.limit * twistImpulseSum (solveS2 ob c mjs).1) :=
    rfl
  have hsum : twistImpulseSum (c.solve ob mjs).1 =
      twistImpulseSum (solveS2 ob c mjs).1 := rfl
  have hlimeq : c.limit * twistImpulseSum (c.solve ob mjs).1 =
      (solveS2 ob c mjs).1.limit * twistImpulseSum (solveS2 ob c mjs).1 := by
    rw [hsum, hS2lim]
  rw [himpulse, hlimeq]
  exact abs_simd_clamp_le _ _ htl

/-! ### C10: `warmstart` and `solve` touch only their own buffer slot -/

/-- C10. `warmstart` and `solve` modify only the buffer entry at the
constraint's own slot index `mj_lambda2`; every other slot is returned
unchanged. -/
theorem buffer_frame (ob : Vec3 → ℕ → Vec3) (c : VGC) (mjs : ℕ → DeltaVel)
    (j : ℕ) (hj : j ≠ c.mj_lambda2) :
    (c.solve ob mjs).2 j = mjs j ∧ c.warmstart ob mjs j = mjs j := by
  constructor
  · have h1 : (c.solve ob mjs).2 j =
        Function.update mjs c.mj_lambda2 (solveS3 ob c mjs).2 j := rfl
    rw [h1, Function.update_noteq hj]
  · have h2 : c.warmstart ob mjs j =
        Function.update mjs c.mj_lambda2
          { linear := (mjs c.mj_lambda2).linear +
              (iterSteps (warmstartTangentStep ob c) 2
                (iterSteps (warmstartNormalStep c) c.num_contacts
                  DeltaVel.zero)).linear,
            angular := (mjs c.mj_lambda2).angular +
              ((iterSteps (warmstartTangentStep ob c) 2
                  (iterSteps (warmstartNormalStep c) c.num_contacts
                    DeltaVel.zero)).angular +
                Vec3.smul c.twist_part.impulse c.twist_part.gcross2) } j := rfl
    rw [h2, Function.update_noteq hj]

/-- C10 witness: a concrete constraint, buffer and foreign slot. -/
theorem buffer_frame_witness :
    (1 : ℕ) ≠ (default : VGC).mj_lambda2 ∧
      (((default : VGC).solve (fun _ _ => Vec3.zero)
          (fun _ => DeltaVel.zero)).2 1 = DeltaVel.zero ∧
        (default : VGC).warmstart (fun _ _ => Vec3.zero)
          (fun _ => DeltaVel.zero) 1 = DeltaVel.zero) :=
  ⟨by decide,
    buffer_frame (fun _ _ => Vec3.zero) default (fun _ => DeltaVel.zero) 1
      (by decide)⟩

/-! ### Structural lemmas about `generate` -/

theorem chunks4_sub {α : Type} :
    ∀ (l : List α) (ch : List α), ch ∈ chunks4 l → ∀ x ∈ ch, x ∈ l
  | [], ch => by simp [chunks4]
  | [a], ch => fun hch x hx => by
    simp only [chunks4, List.mem_singleton] at hch
    subst hch
    exact hx
  | [a, b], ch => fun hch x hx => by
    simp only [chunks4, List.mem_singleton] at hch
    subst hch
    exact hx
  | [a, b, c], ch => fun hch x hx => by
    simp only [chunks4, List.mem_singleton] at hch
    subst hch
    exact hx
  | a :: b :: c :: d :: rest, ch => fun hch x hx => by
    rw [chunks4] at hch
    rcases List.mem_cons.1 hch with rfl | hch
    · simp only [List.mem_cons, List.mem_singleton] at hx ⊢
      tauto
    · have hmem := chunks4_sub rest ch hch x hx
      simp only [List.mem_cons]
      tauto

theorem chunks4_len_le {α : Type} :
    ∀ (l : List α) (ch : List α), ch ∈ chunks4 l → ch.length ≤ 4
  | [], ch => by simp [chunks4]
  | [a], ch => fun hch => by
    simp only [chunks4, List.mem_singleton] at hch
    subst hch
    simp
  | [a, b], ch => fun hch => by
    simp only [chunks4, List.mem_singleton] at hch
    subst hch
    simp
  | [a, b, c], ch => fun hch => by
    simp only [chunks4, List.mem_singleton] at hch
    subst hch
    simp
  | a :: b :: c :: d :: rest, ch => fun hch => by
    rw [chunks4] at hch
    rcases List.mem_cons.1 hch with rfl | hch
    · simp
    · exact chunks4_len_le rest ch hch

theorem chunks4_getD_mem {α : Type} (l : List α) (k : ℕ)
    (hk : k < (chunks4 l).length) : (chunks4 l).getD k [] ∈ chunks4 l := by
  rw [List.getD_eq_getElem _ _ hk]
  exact List.getElem_mem hk

theorem generate_length (ob : Vec3 → ℕ → Vec3) (dist : Vec3 → Vec3 → ℚ)
    (erp cfm impulse_scale inv_dt rvt wc : ℚ) (bodies : ℕ → RigidBody)
    (mid : ℕ) (m : ContactManifold) :
    (generate ob dist erp cfm impulse_scale inv_dt rvt wc bodies mid
      m).length = (chunks4 m.solver_contacts).length := by
  simp [generate]

theorem generate_getD (ob : Vec3 → ℕ → Vec3) (dist : Vec3 → Vec3 → ℚ)
    (erp cfm impulse_scale inv_dt rvt wc : ℚ) (bodies : ℕ → RigidBody)
    (mid : ℕ) (m : ContactManifold) (k : ℕ)
    (hk : k < (generate ob dist erp cfm impulse_scale inv_dt rvt wc bodies mid
      m).length) :
    (generate ob dist erp cfm impulse_scale inv_dt rvt wc bodies mid
        m).getD k default =
      generateOne ob dist erp cfm impulse_scale inv_dt rvt mid
        m.twist_impulse (m.warmstart_multiplier * wc)
        (if !(bodies m.body2).is_dynamic then bodies m.body2
          else bodies m.body1)
        (if !(bodies m.body2).is_dynamic then bodies m.body1
          else bodies m.body2)
        (if !(bodies m.body2).is_dynamic then m.normal else -m.normal)
        k ((chunks4 m.solver_contacts).getD k []) := by
  rw [List.getD_eq_getElem _ _ hk]
  simp [generate]

theorem generateOne_num_contacts (ob : Vec3 → ℕ → Vec3)
    (dist : Vec3 → Vec3 → ℚ) (erp cfm impulse_scale inv_dt rvt : ℚ)
    (mid : ℕ) (ti wc : ℚ) (rb1 rb2 : RigidBody) (fd : Vec3) (l : ℕ)
    (pts : List SolverContact) :
    (generateOne ob dist erp cfm impulse_scale inv_dt rvt mid ti wc rb1 rb2
      fd l pts).num_contacts = pts.length := rfl

theorem generateOne_dir1 (ob : Vec3 → ℕ → Vec3) (dist : Vec3 → Vec3 → ℚ)
    (erp cfm impulse_scale inv_dt rvt : ℚ) (mid : ℕ) (ti wc : ℚ)
    (rb1 rb2 : RigidBody) (fd : Vec3) (l : ℕ) (pts : List SolverContact) :
    (generateOne ob dist erp cfm impulse_scale inv_dt rvt mid ti wc rb1 rb2
      fd l pts).dir1 = fd := rfl

theorem generateOne_im2 (ob : Vec3 → ℕ → Vec3) (dist : Vec3 → Vec3 → ℚ)
    (erp cfm impulse_scale inv_dt rvt : ℚ) (mid : ℕ) (ti wc : ℚ)
    (rb1 rb2 : RigidBody) (fd : Vec3) (l : ℕ) (pts : List SolverContact) :
    (generateOne ob dist erp cfm impulse_scale inv_dt rvt mid ti wc rb1 rb2
      fd l pts).im2 = rb2.effective_inv_mass := rfl

theorem generateOne_mj_lambda2 (ob : Vec3 → ℕ → Vec3)
    (dist : Vec3 → Vec3 → ℚ) (erp cfm impulse_scale inv_dt rvt : ℚ)
    (mid : ℕ) (ti wc : ℚ) (rb1 rb2 : RigidBody) (fd : Vec3) (l : ℕ)
    (pts : List SolverContact) :
    (generateOne ob dist erp cfm impulse_scale inv_dt rvt mid ti wc rb1 rb2
      fd l pts).mj_lambda2 = rb2.island_offset := rfl

theorem generateOne_manifold_contact_id (ob : Vec3 → ℕ → Vec3)
    (dist : Vec3 → Vec3 → ℚ) (erp cfm impulse_scale inv_dt rvt : ℚ)
    (mid : ℕ) (ti wc : ℚ) (rb1 rb2 : RigidBody) (fd : Vec3) (l : ℕ)
    (pts : List SolverContact) :
    (generateOne ob dist erp cfm impulse_scale inv_dt rvt mid ti wc rb1 rb2
      fd l pts).manifold_contact_id = l * 4 := rfl

theorem generateOne_twist_impulse (ob : Vec3 → ℕ → Vec3)
    (dist : Vec3 → Vec3 → ℚ) (erp cfm impulse_scale inv_dt rvt : ℚ)
    (mid : ℕ) (ti wc : ℚ) (rb1 rb2 : RigidBody) (fd : Vec3) (l : ℕ)
    (pts : List SolverContact) :
    (generateOne ob dist erp cfm impulse_scale inv_dt rvt mid ti wc rb1 rb2
      fd l pts).twist_part.impulse = ti * wc := rfl

/-- Normal slots beyond the chunk length keep their zero initialisation. -/
theorem generateOne_normal_zero (ob : Vec3 → ℕ → Vec3)
    (dist : Vec3 → Vec3 → ℚ) (erp cfm impulse_scale inv_dt rvt : ℚ)
    (mid : ℕ) (ti wc : ℚ) (rb1 rb2 : RigidBody) (fd : Vec3) (l : ℕ)
    (pts : List SolverContact) (k : ℕ) (hk : pts.length ≤ k) :
    (generateOne ob dist erp cfm impulse_scale inv_dt rvt mid ti wc rb1 rb2
      fd l pts).normal_parts k = VelocityConstraintElementPart.zero := by
  simp [generateOne, Nat.not_lt.mpr hk]

/-- An active normal slot is seeded with the warmstarted manifold impulse. -/
theorem generateOne_normal_impulse (ob : Vec3 → ℕ → Vec3)
    (dist : Vec3 → Vec3 → ℚ) (erp cfm impulse_scale inv_dt rvt : ℚ)
    (mid : ℕ) (ti wc : ℚ) (rb1 rb2 : RigidBody) (fd : Vec3) (l : ℕ)
    (pts : List SolverContact) (k : ℕ) (hk : k < pts.length) :
    ((generateOne ob dist erp cfm impulse_scale inv_dt rvt mid ti wc rb1 rb2
      fd l pts).normal_parts k).impulse =
      (pts.get ⟨k, hk⟩).data.impulse * wc := by
  simp [generateOne, hk]

/-- The shared tangent impulses are seeded with the warmstarted sums of the
chunk's per-point tangent impulses. -/
theorem generateOne_tangent_impulse (ob : Vec3 → ℕ → Vec3)
    (dist : Vec3 → Vec3 → ℚ) (erp cfm impulse_scale inv_dt rvt : ℚ)
    (mid : ℕ) (ti wc : ℚ) (rb1 rb2 : RigidBody) (fd : Vec3) (l : ℕ)
    (pts : List SolverContact) (j : ℕ) (hj : j < 2) :
    ((generateOne ob dist erp cfm impulse_scale inv_dt rvt mid ti wc rb1 rb2
      fd l pts).tangent_parts j).impulse =
      (pts.foldl (fun a p => a + p.data.tangent_impulse j) 0) * wc := by
  simp [generateOne, hj]

/-- The twist weights of a generated constraint are distances, hence
non-negative whenever the distance function is. -/
theorem generateOne_twist_weights_nonneg (ob : Vec3 → ℕ → Vec3)
    (dist : Vec3 → Vec3 → ℚ) (erp cfm impulse_scale inv_dt rvt : ℚ)
    (mid : ℕ) (ti wc : ℚ) (rb1 rb2 : RigidBody) (fd : Vec3) (l : ℕ)
    (pts : List SolverContact) (hdist : ∀ a b, 0 ≤ dist a b) (k : ℕ) :
    0 ≤ (generateOne ob dist erp cfm impulse_scale inv_dt rvt mid ti wc rb1
      rb2 fd l pts).twist_weights k := by
  by_cases hk : k < pts.length
  · simp only [generateOne, hk, dif_pos]
    exact hdist _ _
  · simp [generateOne, hk]

/-- The friction limit of a generated constraint is the last contact's
friction coefficient (0 for an empty chunk), hence non-negative whenever
every contact's friction is. -/
theorem generateOne_limit_nonneg (ob : Vec3 → ℕ → Vec3)
    (dist : Vec3 → Vec3 → ℚ) (erp cfm impulse_scale inv_dt rvt : ℚ)
    (mid : ℕ) (ti wc : ℚ) (rb1 rb2 : RigidBody) (fd : Vec3) (l : ℕ)
    (pts : List SolverContact) (hfr : ∀ p ∈ pts, 0 ≤ p.friction) :
    0 ≤ (generateOne ob dist erp cfm impulse_scale inv_dt rvt mid ti wc rb1
      rb2 fd l pts).limit := by
  show (0 : ℚ) ≤ (match pts.getLast? with
    | some p => p.friction
    | none => (0 : ℚ))
  cases hlast : pts.getLast? with
  | none => exact le_refl 0
  | some p =>
    obtain ⟨hne, hp⟩ := List.mem_getLast?_eq_getLast (Option.mem_def.mpr hlast)
    exact hfr p (hp ▸ List.getLast_mem hne)

/-- Every normal impulse of a generated constraint is non-negative whenever
the manifold's persisted impulses and the warmstart coefficient are. -/
theorem generateOne_normal_nonneg (ob : Vec3 → ℕ → Vec3)
    (dist : Vec3 → Vec3 → ℚ) (erp cfm impulse_scale inv_dt rvt : ℚ)
    (mid : ℕ) (ti wc : ℚ) (rb1 rb2 : RigidBody) (fd : Vec3) (l : ℕ)
    (pts : List SolverContact) (himp : ∀ p ∈ pts, 0 ≤ p.data.impulse)
    (hwc : 0 ≤ wc) (k : ℕ) :
    0 ≤ ((generateOne ob dist erp cfm impulse_scale inv_dt rvt mid ti wc rb1
      rb2 fd l pts).normal_parts k).impulse := by
  by_cases hk : k < pts.length
  · rw [generateOne_normal_impulse ob dist erp cfm impulse_scale inv_dt rvt
      mid ti wc rb1 rb2 fd l pts k hk]
    exact mul_nonneg (himp _ (pts.get_mem _ _)) hwc
  · rw [generateOne_normal_zero ob dist erp cfm impulse_scale inv_dt rvt
      mid ti wc rb1 rb2 fd l pts k (Nat.not_lt.mp hk)]
    exact le_refl 0

/-! ### Invariants along consecutive `solve` calls -/

theorem solveN_num_contacts (ob : Vec3 → ℕ → Vec3) :
    ∀ (n : ℕ) (s : VGC × (ℕ → DeltaVel)),
      (solveN ob n s).1.num_contacts = s.1.num_contacts
  | 0, _ => rfl
  | n + 1, s => by
    show (VelocityGroundConstraintWithManifoldFriction.solve ob
      (solveN ob n s).1 (solveN ob n s).2).1.num_contacts = s.1.num_contacts
    rw [solve_num_contacts]
    exact solveN_num_contacts ob n s

theorem solveN_limit (ob : Vec3 → ℕ → Vec3) :
    ∀ (n : ℕ) (s : VGC × (ℕ → DeltaVel)),
      (solveN ob n s).1.limit = s.1.limit
  | 0, _ => rfl
  | n + 1, s => by
    show (VelocityGroundConstraintWithManifoldFriction.solve ob
      (solveN ob n s).1 (solveN ob n s).2).1.limit = s.1.limit
    rw [solve_limit]
    exact solveN_limit ob n s

theorem solveN_twist_weights (ob : Vec3 → ℕ → Vec3) :
    ∀ (n : ℕ) (s : VGC × (ℕ → DeltaVel)),
      (solveN ob n s).1.twist_weights = s.1.twist_weights
  | 0, _ => rfl
  | n + 1, s => by
    show (VelocityGroundConstraintWithManifoldFriction.solve ob
      (solveN ob n s).1 (solveN ob n s).2).1.twist_weights = s.1.twist_weights
    rw [solve_twist_weights]
    exact solveN_twist_weights ob n s

theorem solveN_untouched (ob : Vec3 → ℕ → Vec3) :
    ∀ (n : ℕ) (s : VGC × (ℕ → DeltaVel)) (i : ℕ), s.1.num_contacts ≤ i →
      (solveN ob n s).1.normal_parts i = s.1.normal_parts i
  | 0, _, _ => fun _ => rfl
  | n + 1, s, i => fun hi => by
    show (VelocityGroundConstraintWithManifoldFriction.solve ob
      (solveN ob n s).1 (solveN ob n s).2).1.normal_parts i =
      s.1.normal_parts i
    rw [solve_normal_untouched ob _ _ i
      (by rw [solveN_num_contacts ob n s]; exact hi)]
    exact solveN_untouched ob n s i hi

theorem solveN_normal_nonneg (ob : Vec3 → ℕ → Vec3) :
    ∀ (n : ℕ) (s : VGC × (ℕ → DeltaVel)),
      (∀ i, 0 ≤ (s.1.normal_parts i).impulse) →
      ∀ i, 0 ≤ ((solveN ob n s).1.normal_parts i).impulse
  | 0, _ => fun h => h
  | n + 1, s => fun h i => by
    show 0 ≤ ((VelocityGroundConstraintWithManifoldFriction.solve ob
      (solveN ob n s).1 (solveN ob n s).2).1.normal_parts i).impulse
    exact solve_normal_nonneg ob _ _ (solveN_normal_nonneg ob n s h) i

/-- With at most four contacts and zeroes beyond `num_contacts`, the unrolled
four-term sum equals the sum over the active slots. -/
theorem normalImpulseSum_eq_range (c : VGC) (h4 : c.num_contacts ≤ 4)
    (hz : ∀ i, c.num_contacts ≤ i → (c.normal_parts i).impulse = 0) :
    normalImpulseSum c =
      ∑ i in Finset.range c.num_contacts, (c.normal_parts i).impulse := by
  obtain ⟨nc, hnc⟩ : ∃ nc, c.num_contacts = nc := ⟨_, rfl⟩
  rw [hnc] at h4 hz ⊢
  have hz0 := hz 0
  have hz1 := hz 1
  have hz2 := hz 2
  have hz3 := hz 3
  interval_cases nc <;> simp_all [normalImpulseSum, Finset.sum_range_succ]

/-! ### C3: normal impulses are non-negative after any run of solves -/

/-- C3. For every generated ground constraint and every `n ≥ 1` consecutive
`solve` calls on any shared delta-velocity buffer, after the `n`-th call
every normal element's impulse is non-negative: active slots are floored at 0
by the unilateral `max`, unused slots keep the zero they were initialised
with. -/
theorem normal_impulses_nonneg_after_solves (ob : Vec3 → ℕ → Vec3)
    (dist : Vec3 → Vec3 → ℚ) (erp cfm impulse_scale inv_dt rvt wc : ℚ)
    (bodies : ℕ → RigidBody) (mid : ℕ) (m : ContactManifold)
    (buf : ℕ → DeltaVel) (k n i : ℕ)
    (hk : k < (generate ob dist erp cfm impulse_scale inv_dt rvt wc bodies
      mid m).length)
    (hn : 1 ≤ n) :
    0 ≤ ((solveN ob n
        ((generate ob dist erp cfm impulse_scale inv_dt rvt wc bodies mid
            m).getD k default,
          buf)).1.normal_parts i).impulse := by
  obtain ⟨n', rfl⟩ : ∃ n', n = n' + 1 := ⟨n - 1, by omega⟩
  set c := (generate ob dist erp cfm impulse_scale inv_dt rvt wc bodies mid
    m).getD k default with hcdef
  show 0 ≤ ((VelocityGroundConstraintWithManifoldFriction.solve ob
    (solveN ob n' (c, buf)).1
    (solveN ob n' (c, buf)).2).1.normal_parts i).impulse
  by_cases hi : i < (solveN ob n' (c, buf)).1.num_contacts
  · exact solve_normal_nonneg_active ob _ _ i hi
  · rw [solve_normal_untouched ob _ _ i (le_of_not_lt hi)]
    have hnc : (solveN ob n' (c, buf)).1.num_contacts = c.num_contacts :=
      solveN_num_contacts ob n' _
    have hu : (solveN ob n' (c, buf)).1.normal_parts i = c.normal_parts i :=
      solveN_untouched ob n' _ i (by rw [← hnc]; exact le_of_not_lt hi)
    rw [hu]
    have hcgen := generate_getD ob dist erp cfm impulse_scale inv_dt rvt wc
      bodies mid m k hk
    rw [← hcdef] at hcgen
    have hile : c.num_contacts ≤ i := by
      rw [← hnc]; exact le_of_not_lt hi
    rw [hcgen] at hile ⊢
    rw [generateOne_num_contacts] at hile
    rw [generateOne_normal_zero _ _ _ _ _ _ _ _ _ _ _ _ _ _ _ i hile]
    exact le_refl 0

/-! ### C7: unused slots stay zero and the unrolled sums are exact -/

/-- C7. For a generated constraint with fewer than four contacts, the normal
slots at or beyond `num_contacts` hold impulse 0 after `generate` and after
any number of `solve` calls (and `writeback_impulses` never mutates the
constraint), so the unrolled four-term sum over all slots equals the sum over
the first `num_contacts` slots. -/
theorem unused_slots_stay_zero (ob : Vec3 → ℕ → Vec3)
    (dist : Vec3 → Vec3 → ℚ) (erp cfm impulse_scale inv_dt rvt wc : ℚ)
    (bodies : ℕ → RigidBody) (mid : ℕ) (m : ContactManifold)
    (buf : ℕ → DeltaVel) (k n i : ℕ)
    (hk : k < (generate ob dist erp cfm impulse_scale inv_dt rvt wc bodies
      mid m).length)
    (hi : ((generate ob dist erp cfm impulse_scale inv_dt rvt wc bodies mid
        m).getD k default).num_contacts ≤ i) :
    ((solveN ob n
        ((generate ob dist erp cfm impulse_scale inv_dt rvt wc bodies mid
            m).getD k default,
          buf)).1.normal_parts i).impulse = 0 ∧
      normalImpulseSum (solveN ob n
        ((generate ob dist erp cfm impulse_scale inv_dt rvt wc bodies mid
            m).getD k default, buf)).1 =
        ∑ i2 in Finset.range (solveN ob n
          ((generate ob dist erp cfm impulse_scale inv_dt rvt wc bodies mid
              m).getD k default, buf)).1.num_contacts,
          ((solveN ob n
            ((generate ob dist erp cfm impulse_scale inv_dt rvt wc bodies mid
                m).getD k default, buf)).1.normal_parts i2).impulse := by
  set c := (generate ob dist erp cfm impulse_scale inv_dt rvt wc bodies mid
    m).getD k default with hcdef
  have hcgen := generate_getD ob dist erp cfm impulse_scale inv_dt rvt wc
    bodies mid m k hk
  rw [← hcdef] at hcgen
  have hk' : k < (chunks4 m.solver_contacts).length := by
    rw [generate_length] at hk
    exact hk
  have hch4 : ((chunks4 m.solver_contacts).getD k []).length ≤ 4 :=
    chunks4_len_le m.solver_contacts _ (chunks4_getD_mem _ k hk')
  have hnc4 : c.num_contacts ≤ 4 := by
    rw [hcgen, generateOne_num_contacts]
    exact hch4
  have hzero : ∀ i2, c.num_contacts ≤ i2 →
      ((solveN ob n (c, buf)).1.normal_parts i2).impulse = 0 := by
    intro i2 hi2
    rw [solveN_untouched ob n _ i2 hi2]
    have hi2' : ((chunks4 m.solver_contacts).getD k []).length ≤ i2 := by
      rw [hcgen, generateOne_num_contacts] at hi2
      exact hi2
    rw [hcgen, generateOne_normal_zero _ _ _ _ _ _ _ _ _ _ _ _ _ _ _ i2 hi2']
    rfl
  have hncN : (solveN ob n (c, buf)).1.num_contacts = c.num_contacts :=
    solveN_num_contacts ob n _
  refine ⟨hzero i hi, ?_⟩
  refine normalImpulseSum_eq_range _ (by rw [hncN]; exact hnc4) ?_
  intro i2 hi2
  exact hzero i2 (by rw [← hncN]; exact hi2)

/-! ### C8: functional correctness of `writeback_impulses` -/

/-- A loop of updates at pairwise-distinct indices `base + i` leaves slot
`base + k` holding exactly the value written at iteration `k`. -/
theorem iterUpdate_at {β : Type} (base : ℕ) (V : ℕ → β) :
    ∀ (n : ℕ) (p0 : ℕ → β) (k : ℕ), k < n →
      iterSteps (fun i p => Function.update p (base + i) (V i)) n p0
        (base + k) = V k
  | 0, _, _ => fun h => absurd h (Nat.not_lt_zero _)
  | n + 1, p0, k => fun hk => by
    by_cases hkn : k = n
    · subst hkn
      show Function.update
        (iterSteps (fun i p => Function.update p (base + i) (V i)) k p0)
        (base + k) (V k) (base + k) = V k
      rw [Function.update_same]
    · show Function.update
        (iterSteps (fun i p => Function.update p (base + i) (V i)) n p0)
        (base + n) (V n) (base + k) = V k
      rw [Function.update_noteq (by omega)]
      exact iterUpdate_at base V n p0 k (by omega)

/-- The manifold written by `writeback_impulses`, at its own slot. -/
theorem writeback_manifold_eq (c : VGC) (M : ℕ → ContactManifold) :
    (c.writeback_impulses M) c.manifold_id =
      { M c.manifold_id with
        points := iterSteps
          (fun k p => Function.update p (c.manifold_contact_id + k)
            { impulse := (c.normal_parts k).impulse,
              tangent_impulse := fun j2 => (c.tangent_parts j2).impulse *
                ((c.normal_parts k).impulse *
                  inv0 (normalImpulseSum c)) })
          c.num_contacts (M c.manifold_id).points,
        twist_impulse := c.twist_part.impulse } := by
  show Function.update M c.manifold_id _ c.manifold_id = _
  rw [Function.update_same]

/-- The data written to the `k0`-th manifold point. -/
theorem writeback_point (c : VGC) (M : ℕ → ContactManifold) (k0 : ℕ)
    (hk0 : k0 < c.num_contacts) :
    ((c.writeback_impulses M) c.manifold_id).points
        (c.manifold_contact_id + k0) =
      { impulse := (c.normal_parts k0).impulse,
        tangent_impulse := fun j2 => (c.tangent_parts j2).impulse *
          ((c.normal_parts k0).impulse * inv0 (normalImpulseSum c)) } := by
  rw [writeback_manifold_eq]
  exact iterUpdate_at c.manifold_contact_id _ c.num_contacts _ k0 hk0

/-- The twist impulse written to the manifold. -/
theorem writeback_twist (c : VGC) (M : ℕ → ContactManifold) :
    ((c.writeback_impulses M) c.manifold_id).twist_impulse =
      c.twist_part.impulse := by
  rw [writeback_manifold_eq]

/-- C8. `writeback_impulses` writes each normal element's impulse to its
manifold point, writes the twist impulse to the manifold, and writes to each
point the two shared tangent impulses scaled by that point's normal impulse
times the zero-guarded reciprocal of the total; when the total normal impulse
is zero every written tangent impulse is zero. -/
theorem writeback_impulses_spec (c : VGC) (M : ℕ → ContactManifold)
    (k0 j : ℕ) (hk0 : k0 < c.num_contacts) :
    ((c.writeback_impulses M) c.manifold_id).points
        (c.manifold_contact_id + k0) =
      { impulse := (c.normal_parts k0).impulse,
        tangent_impulse := fun j2 => (c.tangent_parts j2).impulse *
          ((c.normal_parts k0).impulse * inv0 (normalImpulseSum c)) } ∧
      ((c.writeback_impulses M) c.manifold_id).twist_impulse =
        c.twist_part.impulse ∧
      (normalImpulseSum c = 0 →
        (((c.writeback_impulses M) c.manifold_id).points
          (c.manifold_contact_id + k0)).tangent_impulse j = 0) := by
  have hpt := writeback_point c M k0 hk0
  refine ⟨hpt, writeback_twist c M, ?_⟩
  intro hS
  rw [hpt]
  show (c.tangent_parts j).impulse *
    ((c.normal_parts k0).impulse * inv0 (normalImpulseSum c)) = 0
  rw [hS]
  show (c.tangent_parts j).impulse * ((c.normal_parts k0).impulse * 0) = 0
  ring

/-! ### Concrete data shared by the witnesses and counterexamples -/

/-- A trivial stand-in for the external orthonormal-basis function. -/
def obZ : Vec3 → ℕ → Vec3 := fun _ _ => Vec3.zero

/-- A trivial stand-in for the external distance function. -/
def distZ : Vec3 → Vec3 → ℚ := fun _ _ => 0

/-- An all-zero shared delta-velocity buffer. -/
def bufZ : ℕ → DeltaVel := fun _ => DeltaVel.zero

/-- A non-dynamic body sliding at 5 units/s along `x`. -/
def bodyGround : RigidBody :=
  { is_dynamic := false, effective_inv_mass := 0,
    inv_inertia_sqrt := fun _ => Vec3.zero,
    linvel := ⟨5, 0, 0⟩, angvel := Vec3.zero, world_com := Vec3.zero,
    island_offset := 0 }

/-- A dynamic body at rest with unit inverse mass. -/
def bodyDynamic : RigidBody :=
  { is_dynamic := true, effective_inv_mass := 1,
    inv_inertia_sqrt := fun _ => Vec3.zero,
    linvel := Vec3.zero, angvel := Vec3.zero, world_com := Vec3.zero,
    island_offset := 0 }

/-- Body table: id 0 is the non-dynamic body, all others dynamic. -/
def bodiesEx : ℕ → RigidBody :=
  fun i => if i = 0 then bodyGround else bodyDynamic

/-- One solver contact with unit friction, unit persisted normal impulse and
persisted tangent impulse `(1, 0)`. -/
def contactEx : SolverContact :=
  { point := Vec3.zero, dist := 0, friction := 1, restitution := 0,
    data := { impulse := 1,
              tangent_impulse := fun j => if j = 0 then 1 else 0 } }

/-- A manifold whose body2 is the dynamic body (no role swap). -/
def manifoldEx : ContactManifold :=
  { body1 := 0, body2 := 1, normal := ⟨-1, 0, 0⟩,
    solver_contacts := [contactEx], twist_impulse := 0,
    warmstart_multiplier := 1, constraint_index := 0,
    points := fun _ => ContactData.zero }

/-- A manifold whose body2 is the non-dynamic body (role swap). -/
def manifoldFlip : ContactManifold :=
  { body1 := 1, body2 := 0, normal := ⟨1, 0, 0⟩,
    solver_contacts := [contactEx], twist_impulse := 0,
    warmstart_multiplier := 1, constraint_index := 0,
    points := fun _ => ContactData.zero }

/-- C3 witness: one solve on a freshly generated one-contact constraint. -/
theorem normal_impulses_nonneg_after_solves_witness :
    (0 < (generate obZ distZ 0 0 1 0 0 1 bodiesEx 0 manifoldEx).length ∧
        (1 : ℕ) ≤ 1) ∧
      0 ≤ ((solveN obZ 1
          ((generate obZ distZ 0 0 1 0 0 1 bodiesEx 0 manifoldEx).getD 0
            default, bufZ)).1.normal_parts 0).impulse :=
  ⟨⟨by decide, le_refl 1⟩,
    normal_impulses_nonneg_after_solves obZ distZ 0 0 1 0 0 1 bodiesEx 0
      manifoldEx bufZ 0 1 0 (by decide) (le_refl 1)⟩

/-- C7 witness: slot 1 of a one-contact constraint stays zero and the
unrolled sum matches the active sum. -/
theorem unused_slots_stay_zero_witness :
    (0 < (generate obZ distZ 0 0 1 0 0 1 bodiesEx 0 manifoldEx).length ∧
        ((generate obZ distZ 0 0 1 0 0 1 bodiesEx 0
          manifoldEx).getD 0 default).num_contacts ≤ 1) ∧
      (((solveN obZ 1
          ((generate obZ distZ 0 0 1 0 0 1 bodiesEx 0 manifoldEx).getD 0
            default, bufZ)).1.normal_parts 1).impulse = 0 ∧
        normalImpulseSum (solveN obZ 1
          ((generate obZ distZ 0 0 1 0 0 1 bodiesEx 0 manifoldEx).getD 0
            default, bufZ)).1 =
          ∑ i2 in Finset.range (solveN obZ 1
            ((generate obZ distZ 0 0 1 0 0 1 bodiesEx 0 manifoldEx).getD 0
              default, bufZ)).1.num_contacts,
            ((solveN obZ 1
              ((generate obZ distZ 0 0 1 0 0 1 bodiesEx 0 manifoldEx).getD 0
                default, bufZ)).1.normal_parts i2).impulse) :=
  ⟨⟨by decide, by decide⟩,
    unused_slots_stay_zero obZ distZ 0 0 1 0 0 1 bodiesEx 0 manifoldEx bufZ
      0 1 1 (by decide) (by decide)⟩

/-! ### C5: the role swap and the force direction -/

/-- C5 counterexample.  For a manifold whose body2 is the non-dynamic body,
the generated constraint's force direction is the manifold normal itself,
not the negated normal the claim requires (the negation happens in the
unswapped case instead). -/
theorem generate_flip_counterexample :
    (bodiesEx manifoldFlip.body2).is_dynamic = false ∧
      0 < (generate obZ distZ 0 0 1 0 0 1 bodiesEx 0 manifoldFlip).length ∧
      ((generate obZ distZ 0 0 1 0 0 1 bodiesEx 0 manifoldFlip).getD 0
        default).dir1 = manifoldFlip.normal ∧
      manifoldFlip.normal ≠ -manifoldFlip.normal := by
  refine ⟨rfl, by decide, by decide, by decide⟩

/-- C5 (amended). When body2 is non-dynamic the roles are swapped — the
constraint is built against body1's inverse mass and buffer slot — and the
force direction is the *unnegated* manifold normal; when body2 is dynamic no
swap occurs and the force direction is the *negated* manifold normal. -/
theorem generate_flip (ob : Vec3 → ℕ → Vec3) (dist : Vec3 → Vec3 → ℚ)
    (erp cfm impulse_scale inv_dt rvt wc : ℚ) (bodies : ℕ → RigidBody)
    (mid : ℕ) (m : ContactManifold) (k : ℕ)
    (hk : k < (generate ob dist erp cfm impulse_scale inv_dt rvt wc bodies
      mid m).length) :
    ((bodies m.body2).is_dynamic = false →
      ((generate ob dist erp cfm impulse_scale inv_dt rvt wc bodies mid
          m).getD k default).dir1 = m.normal ∧
        ((generate ob dist erp cfm impulse_scale inv_dt rvt wc bodies mid
          m).getD k default).im2 = (bodies m.body1).effective_inv_mass ∧
        ((generate ob dist erp cfm impulse_scale inv_dt rvt wc bodies mid
          m).getD k default).mj_lambda2 = (bodies m.body1).island_offset) ∧
      ((bodies m.body2).is_dynamic = true →
        ((generate ob dist erp cfm impulse_scale inv_dt rvt wc bodies mid
            m).getD k default).dir1 = -m.normal ∧
          ((generate ob dist erp cfm impulse_scale inv_dt rvt wc bodies mid
            m).getD k default).im2 = (bodies m.body2).effective_inv_mass ∧
          ((generate ob dist erp cfm impulse_scale inv_dt rvt wc bodies mid
            m).getD k default).mj_lambda2 =
            (bodies m.body2).island_offset) := by
  have hcgen := generate_getD ob dist erp cfm impulse_scale inv_dt rvt wc
    bodies mid m k hk
  constructor
  · intro hdyn
    rw [hcgen]
    simp only [hdyn, Bool.not_false, if_pos]
    exact ⟨generateOne_dir1 _ _ _ _ _ _ _ _ _ _ _ _ _ _ _,
      generateOne_im2 _ _ _ _ _ _ _ _ _ _ _ _ _ _ _,
      generateOne_mj_lambda2 _ _ _ _ _ _ _ _ _ _ _ _ _ _ _⟩
  · intro hdyn
    rw [hcgen]
    simp only [hdyn, Bool.not_true, Bool.false_eq_true, if_false]
    exact ⟨generateOne_dir1 _ _ _ _ _ _ _ _ _ _ _ _ _ _ _,
      generateOne_im2 _ _ _ _ _ _ _ _ _ _ _ _ _ _ _,
      generateOne_mj_lambda2 _ _ _ _ _ _ _ _ _ _ _ _ _ _ _⟩

/-- C5 witness: the swapped case at the concrete flipped manifold. -/
theorem generate_flip_witness :
    (0 < (generate obZ distZ 0 0 1 0 0 1 bodiesEx 0 manifoldFlip).length ∧
        (bodiesEx manifoldFlip.body2).is_dynamic = false) ∧
      ((generate obZ distZ 0 0 1 0 0 1 bodiesEx 0 manifoldFlip).getD 0
          default).dir1 = manifoldFlip.normal ∧
        ((generate obZ distZ 0 0 1 0 0 1 bodiesEx 0 manifoldFlip).getD 0
          default).im2 = (bodiesEx manifoldFlip.body1).effective_inv_mass ∧
        ((generate obZ distZ 0 0 1 0 0 1 bodiesEx 0 manifoldFlip).getD 0
          default).mj_lambda2 =
          (bodiesEx manifoldFlip.body1).island_offset :=
  ⟨⟨by decide, rfl⟩,
    (generate_flip obZ distZ 0 0 1 0 0 1 bodiesEx 0 manifoldFlip 0
      (by decide)).1 rfl⟩

/-! ### Small-step evaluation lemmas used to evaluate concrete runs -/

theorem iterSteps_zero {σ : Type} (f : ℕ → σ → σ) (s : σ) :
    iterSteps f 0 s = s := rfl

theorem iterSteps_one {σ : Type} (f : ℕ → σ → σ) (s : σ) :
    iterSteps f 1 s = f 0 s := rfl

theorem iterSteps_two {σ : Type} (f : ℕ → σ → σ) (s : σ) :
    iterSteps f 2 s = f 1 (f 0 s) := rfl

theorem solveN_one (ob : Vec3 → ℕ → Vec3) (s : VGC × (ℕ → DeltaVel)) :
    solveN ob 1 s =
      VelocityGroundConstraintWithManifoldFriction.solve ob s.1 s.2 := rfl

theorem Vec3.add_def (a b : Vec3) :
    a + b = ⟨a.x + b.x, a.y + b.y, a.z + b.z⟩ := rfl

theorem Vec3.neg_def (a : Vec3) : -a = ⟨-a.x, -a.y, -a.z⟩ := rfl

theorem Vec3.sub_def (a b : Vec3) :
    a - b = ⟨a.x - b.x, a.y - b.y, a.z - b.z⟩ := rfl

/-! ### C1: the friction and twist impulse limits -/

/-- C1 counterexample.  Right after a `solve` call the tangent impulse can
exceed the friction coefficient times the sum of the normal impulses held at
the moment `solve` returns: the friction clamp uses the *entry* impulses, and
the subsequent non-penetration pass here drops the normal impulse to 0 while
the tangent impulse stays at 1. -/
theorem tangent_limit_counterexample :
    0 < (generate obZ distZ 0 0 1 0 0 1 bodiesEx 0 manifoldEx).length ∧
      ¬ (|((VelocityGroundConstraintWithManifoldFriction.solve obZ
            ((generate obZ distZ 0 0 1 0 0 1 bodiesEx 0 manifoldEx).getD 0
              default) bufZ).1.tangent_parts 0).impulse| ≤
          ((VelocityGroundConstraintWithManifoldFriction.solve obZ
            ((generate obZ distZ 0 0 1 0 0 1 bodiesEx 0 manifoldEx).getD 0
              default) bufZ).1).limit *
            normalImpulseSum ((VelocityGroundConstraintWithManifoldFriction.solve
              obZ ((generate obZ distZ 0 0 1 0 0 1 bodiesEx 0
                manifoldEx).getD 0 default) bufZ).1)) := by
  constructor
  · decide
  · norm_num [generate, generateOne, chunks4, normalImpulseSum,
      twistImpulseSum, obZ, distZ, bufZ, bodiesEx, bodyGround, bodyDynamic,
      contactEx, manifoldEx, (show List.range 1 = [0] from rfl),
      List.getD_cons_zero, Vec3.dot, Vec3.cross, Vec3.smul, Vec3.add_def,
      Vec3.neg_def, Vec3.sub_def, Vec3.zero, inv0,
      VelocityConstraintElementPart.zero, ContactData.zero, DeltaVel.zero,
      VelocityGroundConstraintWithManifoldFriction.solve, solveTangentStep,
      solveNormalStep, solveTwistStep, iterSteps_zero, iterSteps_one,
      iterSteps_two, simd_clamp, min_def, max_def, Function.update]

/-- C1 (amended). For every generated ground constraint — with non-negative
friction coefficients, distances, persisted impulses and warmstart
coefficient — and for every `solve` call (the `n+1`-st in a row, on any
shared buffer): right after the call each tangent impulse is bounded by the
friction coefficient times the sum of the normal impulses held at call
*entry*, and the twist impulse is bounded by the friction coefficient times
the weighted sum of the normal impulses held when the call *returns*. -/
theorem friction_limits_after_solve (ob : Vec3 → ℕ → Vec3)
    (dist : Vec3 → Vec3 → ℚ) (erp cfm impulse_scale inv_dt rvt wc : ℚ)
    (bodies : ℕ → RigidBody) (mid : ℕ) (m : ContactManifold)
    (buf : ℕ → DeltaVel) (k n j : ℕ)
    (hk : k < (generate ob dist erp cfm impulse_scale inv_dt rvt wc bodies
      mid m).length)
    (hfr : ∀ p ∈ m.solver_contacts, 0 ≤ p.friction)
    (hdist : ∀ a b, 0 ≤ dist a b)
    (himp : ∀ p ∈ m.solver_contacts, 0 ≤ p.data.impulse)
    (hwc : 0 ≤ m.warmstart_multiplier * wc)
    (hj : j < 2) :
    |((VelocityGroundConstraintWithManifoldFriction.solve ob
        (solveN ob n ((generate ob dist erp cfm impulse_scale inv_dt rvt wc
          bodies mid m).getD k default, buf)).1
        (solveN ob n ((generate ob dist erp cfm impulse_scale inv_dt rvt wc
          bodies mid m).getD k default, buf)).2).1.tangent_parts j).impulse| ≤
      (solveN ob n ((generate ob dist erp cfm impulse_scale inv_dt rvt wc
        bodies mid m).getD k default, buf)).1.limit *
        normalImpulseSum (solveN ob n ((generate ob dist erp cfm
          impulse_scale inv_dt rvt wc bodies mid m).getD k default,
          buf)).1 ∧
      |(VelocityGroundConstraintWithManifoldFriction.solve ob
          (solveN ob n ((generate ob dist erp cfm impulse_scale inv_dt rvt wc
            bodies mid m).getD k default, buf)).1
          (solveN ob n ((generate ob dist erp cfm impulse_scale inv_dt rvt wc
            bodies mid m).getD k default,
            buf)).2).1.twist_part.impulse| ≤
        (solveN ob n ((generate ob dist erp cfm impulse_scale inv_dt rvt wc
          bodies mid m).getD k default, buf)).1.limit *
          twistImpulseSum (VelocityGroundConstraintWithManifoldFriction.solve
            ob (solveN ob n ((generate ob dist erp cfm impulse_scale inv_dt
              rvt wc bodies mid m).getD k default, buf)).1
            (solveN ob n ((generate ob dist erp cfm impulse_scale inv_dt rvt
              wc bodies mid m).getD k default, buf)).2).1 := by
  set c := (generate ob dist erp cfm impulse_scale inv_dt rvt wc bodies mid
    m).getD k default with hcdef
  have hcgen := generate_getD ob dist erp cfm impulse_scale inv_dt rvt wc
    bodies mid m k hk
  rw [← hcdef] at hcgen
  have hk' : k < (chunks4 m.solver_contacts).length := by
    rw [generate_length] at hk
    exact hk
  have hchsub : ∀ p ∈ (chunks4 m.solver_contacts).getD k [],
      p ∈ m.solver_contacts :=
    fun p hp => chunks4_sub m.solver_contacts _ (chunks4_getD_mem _ k hk') p hp
  have hlim : 0 ≤ c.limit := by
    rw [hcgen]
    exact generateOne_limit_nonneg _ _ _ _ _ _ _ _ _ _ _ _ _ _ _
      (fun p hp => hfr p (hchsub p hp))
  have hw : ∀ i, 0 ≤ c.twist_weights i := by
    intro i
    rw [hcgen]
    exact generateOne_twist_weights_nonneg _ _ _ _ _ _ _ _ _ _ _ _ _ _ _
      hdist i
  have himpc : ∀ i, 0 ≤ (c.normal_parts i).impulse := by
    intro i
    rw [hcgen]
    exact generateOne_normal_nonneg _ _ _ _ _ _ _ _ _ _ _ _ _ _ _
      (fun p hp => himp p (hchsub p hp)) hwc i
  have hsl : (solveN ob n (c, buf)).1.limit = c.limit := solveN_limit ob n _
  have hsw : (solveN ob n (c, buf)).1.twist_weights = c.twist_weights :=
    solveN_twist_weights ob n _
  have hsi : ∀ i, 0 ≤ ((solveN ob n (c, buf)).1.normal_parts i).impulse :=
    solveN_normal_nonneg ob n _ himpc
  constructor
  · exact solve_tangent_bound ob _ _ (by rw [hsl]; exact hlim) hsi j hj
  · refine solve_twist_bound ob _ _ (by rw [hsl]; exact hlim) ?_ hsi
    intro i
    rw [hsw]
    exact hw i

/-- C1 witness: the first solve call on the concrete one-contact manifold. -/
theorem friction_limits_after_solve_witness :
    (0 < (generate obZ distZ 0 0 1 0 0 1 bodiesEx 0 manifoldEx).length ∧
        (∀ p ∈ manifoldEx.solver_contacts, 0 ≤ p.friction) ∧
        (∀ p ∈ manifoldEx.solver_contacts, 0 ≤ p.data.impulse) ∧
        0 ≤ manifoldEx.warmstart_multiplier * 1 ∧ (0 : ℕ) < 2) ∧
      (|((VelocityGroundConstraintWithManifoldFriction.solve obZ
          (solveN obZ 0 ((generate obZ distZ 0 0 1 0 0 1 bodiesEx 0
            manifoldEx).getD 0 default, bufZ)).1
          (solveN obZ 0 ((generate obZ distZ 0 0 1 0 0 1 bodiesEx 0
            manifoldEx).getD 0 default,
            bufZ)).2).1.tangent_parts 0).impulse| ≤
        (solveN obZ 0 ((generate obZ distZ 0 0 1 0 0 1 bodiesEx 0
          manifoldEx).getD 0 default, bufZ)).1.limit *
          normalImpulseSum (solveN obZ 0 ((generate obZ distZ 0 0 1 0 0 1
            bodiesEx 0 manifoldEx).getD 0 default, bufZ)).1 ∧
        |(VelocityGroundConstraintWithManifoldFriction.solve obZ
            (solveN obZ 0 ((generate obZ distZ 0 0 1 0 0 1 bodiesEx 0
              manifoldEx).getD 0 default, bufZ)).1
            (solveN obZ 0 ((generate obZ distZ 0 0 1 0 0 1 bodiesEx 0
              manifoldEx).getD 0 default,
              bufZ)).2).1.twist_part.impulse| ≤
          (solveN obZ 0 ((generate obZ distZ 0 0 1 0 0 1 bodiesEx 0
            manifoldEx).getD 0 default, bufZ)).1.limit *
            twistImpulseSum (VelocityGroundConstraintWithManifoldFriction.solve
              obZ (solveN obZ 0 ((generate obZ distZ 0 0 1 0 0 1 bodiesEx 0
                manifoldEx).getD 0 default, bufZ)).1
              (solveN obZ 0 ((generate obZ distZ 0 0 1 0 0 1 bodiesEx 0
                manifoldEx).getD 0 default, bufZ)).2).1) :=
  ⟨⟨by decide, by decide, by decide, by norm_num [manifoldEx], by decide⟩,
    friction_limits_after_solve obZ distZ 0 0 1 0 0 1 bodiesEx 0 manifoldEx
      bufZ 0 0 0 (by decide) (by decide) (fun a b => le_refl 0) (by decide)
      (by norm_num [manifoldEx]) (by decide)⟩

/-! ### C6: the warmstart/writeback round trip -/

/-- The non-dynamic body at rest (equilibrium scenarios). -/
def bodyGroundRest : RigidBody := { bodyGround with linvel := Vec3.zero }

/-- Body table for the equilibrium scenarios. -/
def bodiesEq : ℕ → RigidBody :=
  fun i => if i = 0 then bodyGroundRest else bodyDynamic

/-- A second contact with persisted tangent impulse `(0, 0)`. -/
def contactB : SolverContact :=
  { point := Vec3.zero, dist := 0, friction := 1, restitution := 0,
    data := { impulse := 1, tangent_impulse := fun _ => 0 } }

/-- A two-contact equilibrium manifold with per-point tangent impulses
`(1, 0)` and `(0, 0)`. -/
def manifoldEq : ContactManifold :=
  { body1 := 0, body2 := 1, normal := ⟨-1, 0, 0⟩,
    solver_contacts := [contactEx, contactB], twist_impulse := 0,
    warmstart_multiplier := 1, constraint_index := 0,
    points := fun _ => ContactData.zero }

/-- C6 counterexample.  At equilibrium, `warmstart` (which takes `&self` and
only writes the buffer) followed by `writeback_impulses` does *not* write
back the per-point tangent impulses the constraint was generated from: the
shared tangent impulse 1 of the two-contact manifold is redistributed in
proportion to the equal normal impulses, so point 0 receives 1/2 instead of
its original 1. -/
theorem writeback_tangent_counterexample :
    (0 < (generate obZ distZ 0 0 1 0 0 1 bodiesEq 0 manifoldEq).length ∧
        (bodiesEq manifoldEq.body1).linvel = Vec3.zero ∧
        (bodiesEq manifoldEq.body1).angvel = Vec3.zero ∧
        (bodiesEq manifoldEq.body2).linvel = Vec3.zero ∧
        (bodiesEq manifoldEq.body2).angvel = Vec3.zero ∧
        (∀ p ∈ manifoldEq.solver_contacts, p.dist = 0)) ∧
      ((((generate obZ distZ 0 0 1 0 0 1 bodiesEq 0 manifoldEq).getD 0
            default).writeback_impulses (fun _ => manifoldEq)
          ((generate obZ distZ 0 0 1 0 0 1 bodiesEq 0 manifoldEq).getD 0
            default).manifold_id).points
        (((generate obZ distZ 0 0 1 0 0 1 bodiesEq 0 manifoldEq).getD 0
          default).manifold_contact_id + 0)).tangent_impulse 0 ≠
        contactEx.data.tangent_impulse 0 := by
  refine ⟨⟨by decide, rfl, rfl, rfl, rfl, by decide⟩, ?_⟩
  norm_num [generate, generateOne, chunks4, normalImpulseSum, obZ, distZ,
    bodiesEq, bodyGroundRest, bodyGround, bodyDynamic, contactEx, contactB,
    manifoldEq, (show List.range 1 = [0] from rfl), List.getD_cons_zero,
    Vec3.dot, Vec3.cross, Vec3.smul, Vec3.add_def, Vec3.neg_def, Vec3.sub_def,
    Vec3.zero, inv0, VelocityConstraintElementPart.zero, ContactData.zero,
    VelocityGroundConstraintWithManifoldFriction.writeback_impulses,
    iterSteps_zero, iterSteps_one, iterSteps_two, Function.update]

/-- C6 (amended). For a generated ground constraint in an equilibrium state
(zero body velocities, zero contact distances — hence zero bias in every
element), running `warmstart` (which takes `&self` and cannot modify the
constraint's impulses) followed by `writeback_impulses` writes back into the
manifold exactly the normal and twist impulses the constraint was seeded with
at `generate` (the persisted manifold impulses times the warmstart
coefficient), and per-point tangent impulses that sum — provided the total
normal impulse is nonzero — to the seeded shared tangent impulses.  The
per-point tangent values themselves are redistributed proportionally to the
normal impulses and are in general not the per-point values the constraint
was generated from. -/
theorem warmstart_writeback_roundtrip (ob : Vec3 → ℕ → Vec3)
    (dist : Vec3 → Vec3 → ℚ) (erp cfm impulse_scale inv_dt rvt wc : ℚ)
    (bodies : ℕ → RigidBody) (mid : ℕ) (m : ContactManifold)
    (M : ℕ → ContactManifold) (k k0 j : ℕ)
    (hk : k < (generate ob dist erp cfm impulse_scale inv_dt rvt wc bodies
      mid m).length)
    (hv1 : (bodies m.body1).linvel = Vec3.zero)
    (hv2 : (bodies m.body1).angvel = Vec3.zero)
    (hv3 : (bodies m.body2).linvel = Vec3.zero)
    (hv4 : (bodies m.body2).angvel = Vec3.zero)
    (hd0 : ∀ p ∈ m.solver_contacts, p.dist = 0)
    (hS : normalImpulseSum ((generate ob dist erp cfm impulse_scale inv_dt
      rvt wc bodies mid m).getD k default) ≠ 0)
    (hj : j < 2)
    (hk0 : k0 < ((generate ob dist erp cfm impulse_scale inv_dt rvt wc bodies
      mid m).getD k default).num_contacts) :
    (((((generate ob dist erp cfm impulse_scale inv_dt rvt wc bodies mid
          m).getD k default).writeback_impulses M)
        ((generate ob dist erp cfm impulse_scale inv_dt rvt wc bodies mid
          m).getD k default).manifold_id).points
      (((generate ob dist erp cfm impulse_scale inv_dt rvt wc bodies mid
        m).getD k default).manifold_contact_id + k0)).impulse =
      (((chunks4 m.solver_contacts).getD k []).getD k0
        default).data.impulse * (m.warmstart_multiplier * wc) ∧
      (((((generate ob dist erp cfm impulse_scale inv_dt rvt wc bodies mid
            m).getD k default).writeback_impulses M)
          ((generate ob dist erp cfm impulse_scale inv_dt rvt wc bodies mid
            m).getD k default).manifold_id).twist_impulse =
        m.twist_impulse * (m.warmstart_multiplier * wc)) ∧
      (∑ i in Finset.range ((generate ob dist erp cfm impulse_scale inv_dt
          rvt wc bodies mid m).getD k default).num_contacts,
        (((((generate ob dist erp cfm impulse_scale inv_dt rvt wc bodies mid
              m).getD k default).writeback_impulses M)
            ((generate ob dist erp cfm impulse_scale inv_dt rvt wc bodies mid
              m).getD k default).manifold_id).points
          (((generate ob dist erp cfm impulse_scale inv_dt rvt wc bodies mid
            m).getD k default).manifold_contact_id + i)).tangent_impulse j) =
        (((chunks4 m.solver_contacts).getD k []).foldl
          (fun a p => a + p.data.tangent_impulse j) 0) *
          (m.warmstart_multiplier * wc) := by
  set C := (generate ob dist erp cfm impulse_scale inv_dt rvt wc bodies mid
    m).getD k default with hcdef
  have hcgen := generate_getD ob dist erp cfm impulse_scale inv_dt rvt wc
    bodies mid m k hk
  rw [← hcdef] at hcgen
  have hk' : k < (chunks4 m.solver_contacts).length := by
    rw [generate_length] at hk
    exact hk
  have hnum : C.num_contacts =
      ((chunks4 m.solver_contacts).getD k []).length := by
    rw [hcgen, generateOne_num_contacts]
  have hk0' : k0 < ((chunks4 m.solver_contacts).getD k []).length := by
    rw [← hnum]
    exact hk0
  refine ⟨?_, ?_, ?_⟩
  · rw [writeback_point C M k0 hk0]
    show (C.normal_parts k0).impulse = _
    rw [hcgen,
      generateOne_normal_impulse _ _ _ _ _ _ _ _ _ _ _ _ _ _ _ k0 hk0']
    rw [List.getD_eq_getElem _ _ hk0']
    rfl
  · rw [writeback_twist C M, hcgen, generateOne_twist_impulse]
  · have hterm : ∀ i ∈ Finset.range C.num_contacts,
        ((((C.writeback_impulses M) C.manifold_id).points
          (C.manifold_contact_id + i)).tangent_impulse j) =
          (C.tangent_parts j).impulse * inv0 (normalImpulseSum C) *
            (C.normal_parts i).impulse := by
      intro i hi
      rw [writeback_point C M i (Finset.mem_range.1 hi)]
      show (C.tangent_parts j).impulse *
        ((C.normal_parts i).impulse * inv0 (normalImpulseSum C)) = _
      ring
    rw [Finset.sum_congr rfl hterm, ← Finset.mul_sum]
    have hch4 : ((chunks4 m.solver_contacts).getD k []).length ≤ 4 :=
      chunks4_len_le m.solver_contacts _ (chunks4_getD_mem _ k hk')
    have hsum : ∑ i in Finset.range C.num_contacts,
        (C.normal_parts i).impulse = normalImpulseSum C := by
      refine (normalImpulseSum_eq_range C (by rw [hnum]; exact hch4) ?_).symm
      intro i hi
      have hi' : ((chunks4 m.solver_contacts).getD k []).length ≤ i := by
        rw [← hnum]
        exact hi
      rw [hcgen,
        generateOne_normal_zero _ _ _ _ _ _ _ _ _ _ _ _ _ _ _ i hi']
      rfl
    rw [hsum]
    have hT : (C.tangent_parts j).impulse =
        (((chunks4 m.solver_contacts).getD k []).foldl
          (fun a p => a + p.data.tangent_impulse j) 0) *
          (m.warmstart_multiplier * wc) := by
      rw [hcgen]
      exact generateOne_tangent_impulse _ _ _ _ _ _ _ _ _ _ _ _ _ _ _ j hj
    rw [hT]
    have hinv : inv0 (normalImpulseSum C) * normalImpulseSum C = 1 := by
      rw [inv0, if_neg hS]
      exact inv_mul_cancel₀ hS
    calc (((chunks4 m.solver_contacts).getD k []).foldl
          (fun a p => a + p.data.tangent_impulse j) 0) *
          (m.warmstart_multiplier * wc) * inv0 (normalImpulseSum C) *
          normalImpulseSum C
        = (((chunks4 m.solver_contacts).getD k []).foldl
            (fun a p => a + p.data.tangent_impulse j) 0) *
            (m.warmstart_multiplier * wc) *
            (inv0 (normalImpulseSum C) * normalImpulseSum C) := by ring
      _ = (((chunks4 m.solver_contacts).getD k []).foldl
            (fun a p => a + p.data.tangent_impulse j) 0) *
            (m.warmstart_multiplier * wc) := by rw [hinv, mul_one]

/-- C6 witness: the two-contact equilibrium manifold, first point, first
tangent component. -/
theorem warmstart_writeback_roundtrip_witness :
    (0 < (generate obZ distZ 0 0 1 0 0 1 bodiesEq 0 manifoldEq).length ∧
        (bodiesEq manifoldEq.body1).linvel = Vec3.zero ∧
        (∀ p ∈ manifoldEq.solver_contacts, p.dist = 0) ∧
        normalImpulseSum ((generate obZ distZ 0 0 1 0 0 1 bodiesEq 0
          manifoldEq).getD 0 default) ≠ 0 ∧
        0 < ((generate obZ distZ 0 0 1 0 0 1 bodiesEq 0 manifoldEq).getD 0
          default).num_contacts) ∧
      (((((generate obZ distZ 0 0 1 0 0 1 bodiesEq 0 manifoldEq).getD 0
            default).writeback_impulses (fun _ => manifoldEq))
          ((generate obZ distZ 0 0 1 0 0 1 bodiesEq 0 manifoldEq).getD 0
            default).manifold_id).points
        (((generate obZ distZ 0 0 1 0 0 1 bodiesEq 0 manifoldEq).getD 0
          default).manifold_contact_id + 0)).impulse =
        (((chunks4 manifoldEq.solver_contacts).getD 0 []).getD 0
          default).data.impulse * (manifoldEq.warmstart_multiplier * 1) ∧
      (((((generate obZ distZ 0 0 1 0 0 1 bodiesEq 0 manifoldEq).getD 0
            default).writeback_impulses (fun _ => manifoldEq))
          ((generate obZ distZ 0 0 1 0 0 1 bodiesEq 0 manifoldEq).getD 0
            default).manifold_id).twist_impulse =
        manifoldEq.twist_impulse * (manifoldEq.warmstart_multiplier * 1)) ∧
      ((∑ i in Finset.range ((generate obZ distZ 0 0 1 0 0 1 bodiesEq 0
          manifoldEq).getD 0 default).num_contacts,
        (((((generate obZ distZ 0 0 1 0 0 1 bodiesEq 0 manifoldEq).getD 0
              default).writeback_impulses (fun _ => manifoldEq))
            ((generate obZ distZ 0 0 1 0 0 1 bodiesEq 0 manifoldEq).getD 0
              default).manifold_id).points
          (((generate obZ distZ 0 0 1 0 0 1 bodiesEq 0 manifoldEq).getD 0
            default).manifold_contact_id + i)).tangent_impulse 0) =
        (((chunks4 manifoldEq.solver_contacts).getD 0 []).foldl
          (fun a p => a + p.data.tangent_impulse 0) 0) *
          (manifoldEq.warmstart_multiplier * 1)) :=
  ⟨⟨by decide, rfl, by decide,
      by
        norm_num [generate, generateOne, chunks4, normalImpulseSum, obZ,
          distZ, bodiesEq, bodyGroundRest, bodyGround, bodyDynamic,
          contactEx, contactB, manifoldEq,
          (show List.range 1 = [0] from rfl), List.getD_cons_zero, Vec3.dot,
          Vec3.cross, Vec3.smul, Vec3.add_def, Vec3.neg_def, Vec3.sub_def,
          Vec3.zero, inv0, VelocityConstraintElementPart.zero,
          ContactData.zero],
      by decide⟩,
    warmstart_writeback_roundtrip obZ distZ 0 0 1 0 0 1 bodiesEq 0 manifoldEq
      (fun _ => manifoldEq) 0 0 0 (by decide) rfl rfl rfl rfl (by decide)
      (by
        norm_num [generate, generateOne, chunks4, normalImpulseSum, obZ,
          distZ, bodiesEq, bodyGroundRest, bodyGround, bodyDynamic,
          contactEx, contactB, manifoldEq,
          (show List.range 1 = [0] from rfl), List.getD_cons_zero, Vec3.dot,
          Vec3.cross, Vec3.smul, Vec3.add_def, Vec3.neg_def, Vec3.sub_def,
          Vec3.zero, inv0, VelocityConstraintElementPart.zero,
          ContactData.zero])
      (by decide) (by decide)⟩

/-- C8 witness: the generated two-contact constraint against a concrete
manifold table. -/
theorem writeback_impulses_spec_witness :
    0 < ((generate obZ distZ 0 0 1 0 0 1 bodiesEq 0 manifoldEq).getD 0
        default).num_contacts ∧
      ((((generate obZ distZ 0 0 1 0 0 1 bodiesEq 0 manifoldEq).getD 0
            default).writeback_impulses (fun _ => manifoldEq))
          ((generate obZ distZ 0 0 1 0 0 1 bodiesEq 0 manifoldEq).getD 0
            default).manifold_id).points
        (((generate obZ distZ 0 0 1 0 0 1 bodiesEq 0 manifoldEq).getD 0
          default).manifold_contact_id + 0) =
        { impulse := (((generate obZ distZ 0 0 1 0 0 1 bodiesEq 0
            manifoldEq).getD 0 default).normal_parts 0).impulse,
          tangent_impulse := fun j2 =>
            (((generate obZ distZ 0 0 1 0 0 1 bodiesEq 0 manifoldEq).getD 0
              default).tangent_parts j2).impulse *
              ((((generate obZ distZ 0 0 1 0 0 1 bodiesEq 0
                manifoldEq).getD 0 default).normal_parts 0).impulse *
                inv0 (normalImpulseSum ((generate obZ distZ 0 0 1 0 0 1
                  bodiesEq 0 manifoldEq).getD 0 default))) } ∧
        ((((generate obZ distZ 0 0 1 0 0 1 bodiesEq 0 manifoldEq).getD 0
            default).writeback_impulses (fun _ => manifoldEq))
          ((generate obZ distZ 0 0 1 0 0 1 bodiesEq 0 manifoldEq).getD 0
            default).manifold_id).twist_impulse =
          ((generate obZ distZ 0 0 1 0 0 1 bodiesEq 0 manifoldEq).getD 0
            default).twist_part.impulse ∧
        (normalImpulseSum ((generate obZ distZ 0 0 1 0 0 1 bodiesEq 0
            manifoldEq).getD 0 default) = 0 →
          (((((generate obZ distZ 0 0 1 0 0 1 bodiesEq 0 manifoldEq).getD 0
              default).writeback_impulses (fun _ => manifoldEq))
            ((generate obZ distZ 0 0 1 0 0 1 bodiesEq 0 manifoldEq).getD 0
              default).manifold_id).points
            (((generate obZ distZ 0 0 1 0 0 1 bodiesEq 0 manifoldEq).getD 0
              default).manifold_contact_id + 0)).tangent_impulse 0 = 0) :=
  ⟨by decide,
    writeback_impulses_spec ((generate obZ distZ 0 0 1 0 0 1 bodiesEq 0
      manifoldEq).getD 0 default) (fun _ => manifoldEq) 0 0 (by decide)⟩

end Rapier